import Mathlib

/-!
Verification development for the compydetools repository.

Shallow embedding conventions:
* pandas Series over the reference tables are modelled as `List ℚ` with
  positional indexing (the reference tables are indexed by gene-name
  strings, so pandas integer indexing falls back to positions);
* Python floats are modelled as rationals;
* the numpy random generator (an external library) is abstracted as a
  record of deterministic value streams plus a position counter; each
  variate consumes one position.  The negative-binomial distribution is
  abstracted as the generator's natural-number stream, and the
  mean/dispersion parameters of every sampling call are recorded in a
  ghost trace so that branch properties about dispersion handling can be
  stated;
* fallible operations return `Except SimError`.
-/

namespace Compydetools

/-- Python's builtin round and numpy's round: round half to even. -/
def pythonRound (x : ℚ) : ℤ :=
  if x - ⌊x⌋ < 1/2 then ⌊x⌋
  else if 1/2 < x - ⌊x⌋ then ⌊x⌋ + 1
  else if ⌊x⌋ % 2 = 0 then ⌊x⌋ else ⌊x⌋ + 1

/-- numpy astype(int): truncation toward zero.  In the generator it is only
applied to integral values (counts are integral when the table is built),
where it is the identity. -/
def truncToInt (q : ℚ) : ℤ := q.num.tdiv (q.den : ℤ)

/-- numpy Generator, abstracted: independent deterministic value streams
and a position counter; each variate consumes one position.  `nats` backs
negative-binomial draws and choice indices, `expo` backs exponential(1)
draws, `unit` backs uniform draws (as unit-interval values). -/
structure Rng where
  nats : ℕ → ℕ
  expo : ℕ → ℚ
  unit : ℕ → ℚ
  k : ℕ

def Rng.advance (r : Rng) (n : ℕ) : Rng := { r with k := r.k + n }

/-- A well-behaved generator: exponential variates are nonnegative and
unit variates lie in the unit interval. -/
def Rng.Wf (r : Rng) : Prop :=
  ∀ i, 0 ≤ r.expo i ∧ 0 ≤ r.unit i ∧ r.unit i < 1

/-- rng.uniform(low, high): the variate at stream position `i`. -/
def Rng.uniformAt (r : Rng) (low high : ℚ) (i : ℕ) : ℚ :=
  low + (high - low) * r.unit i

/-- rng.uniform(low, high, size=n). -/
def Rng.uniformList (r : Rng) (low high : ℚ) (n : ℕ) : List ℚ × Rng :=
  ((List.range n).map fun j => r.uniformAt low high (r.k + j), r.advance n)

/-- rng.exponential(size=n). -/
def Rng.expoList (r : Rng) (n : ℕ) : List ℚ × Rng :=
  ((List.range n).map fun j => r.expo (r.k + j), r.advance n)

/-- A block of `n` draws from the natural-number stream. -/
def Rng.natList (r : Rng) (n : ℕ) : List ℕ × Rng :=
  ((List.range n).map fun j => r.nats (r.k + j), r.advance n)

/-- Failure modes of the embedded generator pipeline. -/
inductive SimError where
  /-- ValueError raised by the fixed-fold dataset check. -/
  | fixedfoldNonKIRC
  /-- ValueError from Series.sample when n exceeds the table size. -/
  | sampleTooLarge
  /-- IndexError from positional indexing out of range. -/
  | indexError
  /-- ValueError from np.argmin on an empty series. -/
  | emptyArgmin
  /-- ValueError from assigning a column whose length differs from the
  frame's row count (and from mismatched fancy-indexing assignments). -/
  | lengthMismatch
  /-- NameError from reading a never-assigned local variable. -/
  | nameError
deriving DecidableEq

/-- Which dispersion expression a sampling call used, relative to the
assigned (nominal) dispersion of the gene. -/
inductive DispKind where
  | nominal
  | fiveTimes
  | lowered
deriving DecidableEq

/-- Ghost record of one `rnbinom` call: the mean argument, the assigned
dispersion of the gene, the dispersion value actually passed, the number
of variates requested and the branch that produced the call. -/
structure SampCall where
  mean : ℚ
  baseDisp : ℚ
  usedDisp : ℚ
  size : ℕ
  kind : DispKind
deriving DecidableEq

/-- rnbinom(mean, disp, size, rng): the negative-binomial sampler.  The
distribution itself lives in numpy; its i-th variate is abstracted as the
generator's natural-number stream (support ℕ, matching the distribution's
support).  Callers record the parameterization in the ghost trace. -/
def rnbinom (_mean _disp : ℚ) (size : ℕ) (r : Rng) : List ℕ × Rng :=
  r.natList size

/-- np.argmin, scanning with a running minimum: the position of the first
occurrence of the least element. -/
def argminGo (l : List ℚ) (best : ℕ) : List ℕ → ℕ
  | [] => best
  | i :: is => argminGo l (if l.getD i 0 < l.getD best 0 then i else best) is

/-- np.argmin over a list (first index attaining the minimum). -/
def listArgmin (l : List ℚ) : ℕ := argminGo l 0 (List.range l.length)

/-- getDisp: collect the dispersions whose reference mean lies strictly
within ±20 of the target mean; choose one at random from a nonempty pool,
or fall back to the dispersion at the position of the closest reference
mean (np.argmin: first position of the minimum) without touching the
generator.  np.argmin on an empty reference series raises. -/
def get_disp (mean : ℚ) (mean_condition disp_condition : List ℚ) (r : Rng) :
    Except SimError (ℚ × Rng) :=
  let pool := (List.zip mean_condition disp_condition).filterMap
    (fun md => if mean - 20 < md.1 ∧ md.1 < mean + 20 then some md.2 else none)
  if pool.length = 0 then
    if mean_condition.length = 0 then .error .emptyArgmin
    else
      .ok (disp_condition.getD
        (listArgmin (mean_condition.map fun m => |m - mean|)) 0, r)
  else
    .ok (pool.getD (r.nats r.k % pool.length) 0, r.advance 1)

/-- order(): the permutation rearranging the data into ascending order
(Python's sorted is stable, so equal values keep their original relative
order).  Insertion of one index into an already sorted index list. -/
def insertIdx {α : Type} [LinearOrder α] (data : List α) (d : α) (i : ℕ) :
    List ℕ → List ℕ
  | [] => [i]
  | j :: js =>
      if data.getD i d < data.getD j d then i :: j :: js
      else j :: insertIdx data d i js

/-- order(): Porting R's base::order via Python's stable sorted. -/
def order {α : Type} [LinearOrder α] (data : List α) (d : α) : List ℕ :=
  (List.range data.length).foldl (fun acc i => insertIdx data d i acc) []

/-- Positional fancy indexing: take the values of `xs` at `perm`. -/
def applyPerm (xs : List ℚ) (perm : List ℕ) : List ℚ :=
  perm.map fun p => xs.getD p 0

/-- The values of a series rearranged into ascending order
(Series.sort_values; ties resolved deterministically). -/
def sortedVals (xs : List ℚ) : List ℚ := applyPerm xs (order xs 0)

/-- Series.sample(n, random_state=rng): n positions drawn from the table,
raising when n exceeds the table size.  Sampling without replacement is
abstracted: the chosen positions come from the generator's stream (the
claims under verification never depend on their distinctness). -/
def sampleSeries (pool : List ℚ) (n : ℕ) (r : Rng) :
    Except SimError ((List ℕ × List ℚ) × Rng) :=
  if n ≤ pool.length then
    let ps := (List.range n).map fun j => r.nats (r.k + j) % pool.length
    .ok ((ps, ps.map fun p => pool.getD p 0), r.advance n)
  else .error .sampleTooLarge

/-- Resolution of a Python positional index: nonnegative indices address
from the front, negative indices from the end, anything else raises. -/
def pyPos (len : ℕ) (i : ℤ) : Option ℕ :=
  if 0 ≤ i then (if i < (len : ℤ) then some i.toNat else none)
  else (if -i ≤ (len : ℤ) then some (len - (-i).toNat) else none)

/-- np.arange(a, b) as a list of integers. -/
def intRange (a b : ℤ) : List ℤ :=
  (List.range (b - a).toNat).map fun (j : ℕ) => a + (j : ℤ)

/-- s[indices] op= factors: pandas element-wise positional update, as in
sample_mean2[upindex] *= factor1.  The index arrays used by the source
are strictly increasing ranges, on which this sequential update agrees
with the pandas gather/scatter; an unresolvable position raises. -/
def setOpAt (xs : List ℚ) (idxs : List ℤ) (factors : List ℚ)
    (op : ℚ → ℚ → ℚ) : Except SimError (List ℚ) :=
  match idxs, factors with
  | [], _ => .ok xs
  | i :: is, f :: fs =>
      match pyPos xs.length i with
      | some p => setOpAt (xs.set p (op (xs.getD p 0) f)) is fs op
      | none => .error .indexError
  | _ :: _, [] => .error .lengthMismatch

/-- s[:hi] *= c restricted to [lo, hi): pandas positional slice update
(slices clip at the series bounds). -/
def mulSlice (xs : List ℚ) (lo hi : ℕ) (c : ℚ) : List ℚ :=
  xs.mapIdx fun i x => if lo ≤ i ∧ i < hi then x * c else x

/-- s[lo:hi] /= c: pandas positional slice update. -/
def divSlice (xs : List ℚ) (lo hi : ℕ) (c : ℚ) : List ℚ :=
  xs.mapIdx fun i x => if lo ≤ i ∧ i < hi then x / c else x

/-- const.Simul: the reference dataset choices. -/
inductive Simul where
  | KIRC
  | Bottomly
  | mKdB
  | mBdK
deriving DecidableEq

/-- const.Disp: dispersion mode. -/
inductive Disp where
  | same
  | different
deriving DecidableEq

/-- const.Outlier: outlier mode.  The Python function additionally rejects
values that are not members of this enumeration; in the typed embedding
every representable mode is a member, so that check always passes. -/
inductive Outlier where
  | D
  | R
  | OS
  | DL
deriving DecidableEq

/-- DATASET_PARAMETERS: the precomputed empirical reference series, loaded
from the packaged k_params.csv / b_params.csv files (columns of one file
share one gene index, modelled positionally). -/
structure ParamTables where
  k_total_mean : List ℚ
  k_total_disp : List ℚ
  k_cancer_mean : List ℚ
  k_cancer_disp : List ℚ
  k_normal_mean : List ℚ
  k_normal_disp : List ℚ
  b_total_mean : List ℚ
  b_total_disp : List ℚ
  b_C_mean : List ℚ
  b_C_disp : List ℚ
  b_D_mean : List ℚ
  b_D_disp : List ℚ
deriving DecidableEq

/-- The full argument list of synthetic_data_simulation. -/
structure Request where
  simul_data : Simul
  random_sampling : Bool
  large_sample : Bool
  fixedfold : Bool
  nsample : ℕ
  ngenes : ℕ
  nde : ℕ
  frac_up : ℚ
  disp_type : Disp
  outlier_mode : Outlier
  ro_prop : ℚ
  seed : ℕ
deriving DecidableEq

/-- Reference mean series of condition 1 (control), lines 280-291. -/
def refMean1 (pt : ParamTables) : Simul → List ℚ
  | .KIRC | .mBdK => pt.k_normal_mean
  | .Bottomly | .mKdB => pt.b_D_mean

/-- Reference mean series of condition 2 (treatment). -/
def refMean2 (pt : ParamTables) : Simul → List ℚ
  | .KIRC | .mBdK => pt.k_cancer_mean
  | .Bottomly | .mKdB => pt.b_C_mean

/-- Reference dispersion series of condition 1. -/
def refDisp1 (pt : ParamTables) : Simul → List ℚ
  | .KIRC | .mBdK => pt.k_normal_disp
  | .Bottomly | .mKdB => pt.b_D_disp

/-- Reference dispersion series of condition 2. -/
def refDisp2 (pt : ParamTables) : Simul → List ℚ
  | .KIRC | .mBdK => pt.k_cancer_disp
  | .Bottomly | .mKdB => pt.b_C_disp

/-- Pooled reference dispersion series. -/
def refDispTotal (pt : ParamTables) : Simul → List ℚ
  | .KIRC | .mBdK => pt.k_total_disp
  | .Bottomly | .mKdB => pt.b_total_disp

/-- Result of the base mean assignment: sampled positions and values of
the primary series, and (for hybrid datasets) of the secondary series. -/
structure Means where
  pos1 : List ℕ
  sm1 : List ℚ
  subPos : List ℕ
  subVals : List ℚ

/-- Base mean assignment, lines 224-235: draw ngenes means from the
appropriate pooled reference series; hybrid datasets additionally draw a
secondary series from the other dataset. -/
def meansStage (pt : ParamTables) (req : Request) (r : Rng) :
    Except SimError (Means × Rng) :=
  match req.simul_data with
  | .KIRC =>
      match sampleSeries pt.k_total_mean req.ngenes r with
      | .error e => .error e
      | .ok ((ps, vs), r1) => .ok (⟨ps, vs, [], []⟩, r1)
  | .mKdB =>
      match sampleSeries pt.k_total_mean req.ngenes r with
      | .error e => .error e
      | .ok ((ps, vs), r1) =>
          match sampleSeries pt.b_total_mean req.ngenes r1 with
          | .error e => .error e
          | .ok ((qs, ws), r2) => .ok (⟨ps, vs, qs, ws⟩, r2)
  | .Bottomly =>
      match sampleSeries pt.b_total_mean req.ngenes r with
      | .error e => .error e
      | .ok ((ps, vs), r1) => .ok (⟨ps, vs, [], []⟩, r1)
  | .mBdK =>
      match sampleSeries pt.b_total_mean req.ngenes r with
      | .error e => .error e
      | .ok ((ps, vs), r1) =>
          match sampleSeries pt.k_total_mean req.ngenes r1 with
          | .error e => .error e
          | .ok ((qs, ws), r2) => .ok (⟨ps, vs, qs, ws⟩, r2)

/-- The additive floor of the random fold change, lines 263-271: depends
on the sample count per group. -/
def floorFor (nsample : ℕ) : ℚ :=
  if nsample ≤ 3 then 3/2 else if nsample ≤ 5 then 13/10 else 6/5

/-- DE injection, lines 237-277: for nde ≠ 0, perturb a prefix of the
condition-2 mean vector (and of the secondary vector for hybrid
datasets); for nde = 0 the whole block is skipped and num_updeg, needed
later for the Description labels, is never assigned (`none`). -/
def injectDE (req : Request) (sm2 sub2 : List ℚ) (r : Rng) :
    Except SimError ((List ℚ × List ℚ × Option ℤ) × Rng) :=
  if req.nde = 0 then .ok ((sm2, sub2, none), r)
  else if req.fixedfold then
    if req.simul_data ≠ Simul.KIRC then .error .fixedfoldNonKIRC
    else
      let one_third := (pythonRound ((req.nde : ℚ) / 3)).toNat
      let num_updeg := pythonRound (2 * (req.nde : ℚ) / 3)
      let a := mulSlice sm2 0 one_third (115/100)
      let b := mulSlice a one_third num_updeg.toNat (13/10)
      let c := divSlice b num_updeg.toNat req.nde (16/10)
      .ok ((c, sub2, some num_updeg), r)
  else
    let num_updeg := pythonRound ((req.nde : ℚ) * req.frac_up)
    let upindex := intRange 0 num_updeg
    let dnindex := intRange num_updeg req.nde
    let p1 := r.expoList upindex.length
    let p2 := p1.2.expoList dnindex.length
    let fl := floorFor req.nsample
    let f1 := p1.1.map (· + fl)
    let f2 := p2.1.map (· + fl)
    match setOpAt sm2 upindex f1 (· * ·) with
    | .error e => .error e
    | .ok s1 =>
        match setOpAt s1 dnindex f2 (· / ·) with
        | .error e => .error e
        | .ok s2 =>
            if req.simul_data = Simul.mKdB ∨ req.simul_data = Simul.mBdK then
              match setOpAt sub2 upindex f1 (· * ·) with
              | .error e => .error e
              | .ok t1 =>
                  match setOpAt t1 dnindex f2 (· / ·) with
                  | .error e => .error e
                  | .ok t2 => .ok ((s2, t2, some num_updeg), p2.2)
            else .ok ((s2, sub2, some num_updeg), p2.2)

/-- Series.apply(get_disp, ...): element-wise get_disp threading the
generator in gene order. -/
def applyGetDisp (means mc dc : List ℚ) (r : Rng) :
    Except SimError (List ℚ × Rng) :=
  match means with
  | [] => .ok ([], r)
  | m :: ms =>
      match get_disp m mc dc r with
      | .error e => .error e
      | .ok (v, r1) =>
          match applyGetDisp ms mc dc r1 with
          | .error e => .error e
          | .ok (vs, r2) => .ok (v :: vs, r2)

/-- Dispersion assignment, lines 293-332.  sm2 and sub2 are the
perturbed vectors (the source reads sample_mean2 / sub_sample_mean2 after
DE injection); sm1 and the secondary unperturbed vector are read for
condition 1. -/
def dispStage (pt : ParamTables) (req : Request) (ms : Means)
    (sm2 sub2 : List ℚ) (r : Rng) :
    Except SimError ((List ℚ × List ℚ) × Rng) :=
  match req.disp_type with
  | .different =>
      match req.simul_data with
      | .KIRC | .Bottomly =>
          match applyGetDisp ms.sm1 (refMean1 pt req.simul_data)
              (refDisp1 pt req.simul_data) r with
          | .error e => .error e
          | .ok (d1, r1) =>
              match applyGetDisp ms.sm1 (refMean2 pt req.simul_data)
                  (refDisp2 pt req.simul_data) r1 with
              | .error e => .error e
              | .ok (d2, r2) => .ok ((d1, d2), r2)
      | .mKdB | .mBdK =>
          match applyGetDisp (sortedVals ms.subVals)
              (refMean1 pt req.simul_data) (refDisp1 pt req.simul_data) r with
          | .error e => .error e
          | .ok (d1, r1) =>
              match applyGetDisp (sortedVals sub2)
                  (refMean2 pt req.simul_data) (refDisp2 pt req.simul_data)
                  r1 with
              | .error e => .error e
              | .ok (d2, r2) =>
                  .ok ((applyPerm d1 (order (order ms.sm1 0) 0),
                        applyPerm d2 (order (order sm2 0) 0)), r2)
  | .same =>
      let d1 :=
        match req.simul_data with
        | .KIRC | .Bottomly =>
            ms.pos1.map fun p => (refDispTotal pt req.simul_data).getD p 0
        | .mKdB | .mBdK =>
            let sortedSubPos :=
              (order ms.subVals 0).map fun j => ms.subPos.getD j 0
            applyPerm
              (sortedSubPos.map fun p => (refDispTotal pt req.simul_data).getD p 0)
              (order (order ms.sm1 0) 0)
      .ok ((d1, d1), r)

/-- A size-n rnbinom call turned into count cells plus its ghost record:
`usedDisp` is the dispersion expression passed to rnbinom, `baseDisp` the
assigned dispersion it was derived from. -/
def sampBlock (mean baseDisp usedDisp : ℚ) (kind : DispKind) (n : ℕ)
    (r : Rng) : (List ℚ × SampCall) × Rng :=
  let p := rnbinom mean usedDisp n r
  ((p.1.map fun (c : ℕ) => (c : ℚ), ⟨mean, baseDisp, usedDisp, n, kind⟩), p.2)

/-- One gene row of the outlier-sample branch, lines 343-359: an outlier
third of each group at 5x dispersion, the rest at nominal dispersion;
treatment columns first, then control columns. -/
def osRow (m2 d2 m1 d1 : ℚ) (nsample one_third : ℕ) (r : Rng) :
    (List ℚ × List SampCall) × Rng :=
  let two_thirds := nsample - one_third
  let b1 := sampBlock m2 d2 (5 * d2) .fiveTimes one_third r
  let b2 := sampBlock m2 d2 d2 .nominal two_thirds b1.2
  let b3 := sampBlock m1 d1 (5 * d1) .fiveTimes one_third b2.2
  let b4 := sampBlock m1 d1 d1 .nominal two_thirds b3.2
  ((b1.1.1 ++ b2.1.1 ++ b3.1.1 ++ b4.1.1,
    [b1.1.2, b2.1.2, b3.1.2, b4.1.2]), b4.2)

/-- One gene row of the dispersion-lowered branch, lines 387-401: both
groups at the assigned dispersion divided by 22.5. -/
def dlRow (m2 d2 m1 d1 : ℚ) (nsample : ℕ) (r : Rng) :
    (List ℚ × List SampCall) × Rng :=
  let b1 := sampBlock m2 d2 (d2 / (45/2)) .lowered nsample r
  let b2 := sampBlock m1 d1 (d1 / (45/2)) .lowered nsample b1.2
  ((b1.1.1 ++ b2.1.1, [b1.1.2, b2.1.2]), b2.2)

/-- Per-sample scaled draws of the default branch: one single-variate
rnbinom call per sample column, at mean*scale and nominal dispersion. -/
def scaledCalls (mean disp : ℚ) (scales : List ℚ) (r : Rng) :
    (List ℚ × List SampCall) × Rng :=
  match scales with
  | [] => (([], []), r)
  | s :: ss =>
      let b := sampBlock (mean * s) disp disp .nominal 1 r
      let rest := scaledCalls mean disp ss b.2
      ((b.1.1 ++ rest.1.1, b.1.2 :: rest.1.2), rest.2)

/-- One gene row of the default branch, lines 413-423: treatment columns
scaled by rand1, control columns scaled by rand2. -/
def defRow (m2 d2 m1 d1 : ℚ) (rand1 rand2 : List ℚ) (r : Rng) :
    (List ℚ × List SampCall) × Rng :=
  let p1 := scaledCalls m2 d2 rand1 r
  let p2 := scaledCalls m1 d1 rand2 p1.2
  ((p1.1.1 ++ p2.1.1, p1.1.2 ++ p2.1.2), p2.2)

/-- The per-gene sampling loop: `n` remaining genes starting at gene
index `i`; mean/dispersion vectors are read positionally. -/
def geneLoop (rowFn : ℚ → ℚ → ℚ → ℚ → Rng → (List ℚ × List SampCall) × Rng)
    (sm2 sd2 sm1 sd1 : List ℚ) (i n : ℕ) (r : Rng) :
    (List (List ℚ) × List SampCall) × Rng :=
  match n with
  | 0 => (([], []), r)
  | m + 1 =>
      let row := rowFn (sm2.getD i 0) (sd2.getD i 0) (sm1.getD i 0)
        (sd1.getD i 0) r
      let rest := geneLoop rowFn sm2 sd2 sm1 sd1 (i + 1) m row.2
      ((row.1.1 :: rest.1.1, row.1.2 ++ rest.1.2), rest.2)

/-- Whether a column-major flat index falls in the non-outlier ("good")
portion of either group, lines 366-378. -/
def goodIdx (ngenes nsample one_third four_thirds idx : ℕ) : Prop :=
  (ngenes * one_third ≤ idx ∧ idx < ngenes * nsample) ∨
  (ngenes * four_thirds ≤ idx ∧ idx < ngenes * 2 * nsample)

instance (ngenes nsample one_third four_thirds idx : ℕ) :
    Decidable (goodIdx ngenes nsample one_third four_thirds idx) := by
  unfold goodIdx; infer_instance

/-- Scale the selected cells (addressed column-major, as counts.T.flatten
does) by Uniform(5,10) factors drawn in ascending flat-index order, then
round every cell half-to-even (np.round of the whole matrix). -/
def scaleSelected (counts : List (List ℚ)) (ngenes : ℕ) (sel : List ℕ)
    (mult : List ℚ) : List (List ℚ) :=
  counts.mapIdx fun row cells =>
    cells.mapIdx fun col c =>
      let idx := col * ngenes + row
      match sel.findIdx? (fun j => j == idx) with
      | some rank => ((pythonRound (c * mult.getD rank 0) : ℤ) : ℚ)
      | none => ((pythonRound c : ℤ) : ℚ)

/-- Large-sample post-processing, lines 360-384: flag cells whose
Uniform(0,100) draw is below 3, keep those in the good ranges, scale
them by Uniform(5,10) and round the whole matrix. -/
def largePost (counts : List (List ℚ)) (ngenes nsample one_third
    four_thirds : ℕ) (r : Rng) : List (List ℚ) × Rng :=
  let total := ngenes * (2 * nsample)
  let p := r.uniformList 0 100 total
  let sel := (List.range total).filter fun idx =>
    decide (p.1.getD idx 0 < 3 ∧ goodIdx ngenes nsample one_third four_thirds idx)
  let q := p.2.uniformList 5 10 sel.length
  (scaleSelected counts ngenes sel q.1, q.2)

/-- Random-outlier post-processing, lines 426-433: flag ro_prop percent of
all cells, scale them by Uniform(5,10) and round the whole matrix. -/
def randomOutlierPost (counts : List (List ℚ)) (ngenes nsample : ℕ)
    (ro_prop : ℚ) (r : Rng) : List (List ℚ) × Rng :=
  let total := ngenes * (2 * nsample)
  let p := r.uniformList 0 100 total
  let sel := (List.range total).filter fun idx =>
    decide (p.1.getD idx 0 < ro_prop)
  let q := p.2.uniformList 5 10 sel.length
  (scaleSelected counts ngenes sel q.1, q.2)

/-- Count sampling before the random-outlier step, lines 334-423: branch
on the outlier mode (the outlier-sample branch is also taken, in any
mode, when large_sample is set). -/
def baseSampling (req : Request) (sm1 sm2 sd1 sd2 : List ℚ) (r : Rng) :
    (List (List ℚ) × List SampCall) × Rng :=
  let one_third := (pythonRound ((req.nsample : ℚ) / 3)).toNat
  let four_thirds := req.nsample + one_third
  if req.outlier_mode = Outlier.OS ∨ req.large_sample then
    let p := geneLoop (fun a b c d => osRow a b c d req.nsample one_third)
      sm2 sd2 sm1 sd1 0 req.ngenes r
    if req.large_sample then
      let q := largePost p.1.1 req.ngenes req.nsample one_third four_thirds
        p.2
      ((q.1, p.1.2), q.2)
    else p
  else if req.outlier_mode = Outlier.DL then
    geneLoop (fun a b c d => dlRow a b c d req.nsample) sm2 sd2 sm1 sd1 0
      req.ngenes r
  else
    let rands :=
      if req.random_sampling then
        let p1 := r.uniformList (7/10) (13/10) req.nsample
        let p2 := p1.2.uniformList (7/10) (13/10) req.nsample
        ((p1.1, p2.1), p2.2)
      else ((List.replicate req.nsample 1, List.replicate req.nsample 1), r)
    geneLoop (fun a b c d => defRow a b c d rands.1.1 rands.1.2)
      sm2 sd2 sm1 sd1 0 req.ngenes rands.2

/-- Count sampling, lines 334-433: the branch above, then the
random-outlier post-processing when the mode is R (lines 426-433). -/
def samplingStage (req : Request) (sm1 sm2 sd1 sd2 : List ℚ) (r : Rng) :
    (List (List ℚ) × List SampCall) × Rng :=
  let base := baseSampling req sm1 sm2 sd1 sd2 r
  if req.outlier_mode = Outlier.R then
    let q := randomOutlierPost base.1.1 req.ngenes req.nsample req.ro_prop
      base.2
    ((q.1, base.1.2), q.2)
  else base

/-- The assembled output frame, lines 435-450: Gene_ID index, Gene_Symbol
and Description columns, then the TRT/CTRL count columns. -/
structure GeneTable where
  gene_ids : List ℕ
  gene_symbols : List String
  descriptions : List String
  col_names : List String
  counts : List (List ℤ)
deriving DecidableEq

/-- Number of rows of the output frame. -/
def GeneTable.nrows (t : GeneTable) : ℕ := t.gene_ids.length

/-- Number of columns of the output frame (Gene_Symbol, Description, then
the sample columns; Gene_ID is the index). -/
def GeneTable.ncols (t : GeneTable) : ℕ := 2 + t.col_names.length

/-- Assembly, lines 435-450: cast counts to int, name samples and genes,
and attach the Description labels.  Reading num_updeg raises NameError
when the DE-injection block never assigned it; assigning a Description
list whose length differs from the row count raises ValueError.  With
zero sample columns pandas DataFrame.apply falls into its empty-frame
reduction and every gene symbol becomes "LOCNone". -/
def assemble (req : Request) (counts : List (List ℚ))
    (num_updeg : Option ℤ) : Except SimError GeneTable :=
  match num_updeg with
  | none => .error .nameError
  | some u =>
      let nrows := counts.length
      let labels := List.replicate u.toNat "up" ++
        List.replicate ((req.nde : ℤ) - u).toNat "dn" ++
        List.replicate ((nrows : ℤ) - (req.nde : ℤ)).toNat "ns"
      if labels.length = nrows then
        .ok
          { gene_ids := (List.range nrows).map fun i => i + 1
          , gene_symbols :=
              if req.nsample = 0 ∧ nrows ≠ 0 then
                List.replicate nrows "LOCNone"
              else (List.range nrows).map fun i => "LOC" ++ toString (i + 1)
          , descriptions := labels
          , col_names :=
              ((List.range req.nsample).map fun s => "TRT-" ++ toString (s + 1))
              ++ ((List.range req.nsample).map fun s =>
                  "CTRL-" ++ toString (s + 1))
          , counts := counts.map fun row => row.map truncToInt }
      else .error .lengthMismatch

deriving instance DecidableEq for Except

/-- The generator's outcome together with the ghost sampling trace. -/
structure SimResult where
  outcome : Except SimError GeneTable
  trace : List SampCall
deriving DecidableEq

/-- synthetic_data_simulation, lines 139-450, for an explicit generator
state: base mean assignment, DE injection, dispersion assignment, count
sampling, random-outlier post-processing, assembly. -/
def synthetic_data_simulation (pt : ParamTables) (req : Request)
    (r : Rng) : SimResult :=
  match meansStage pt req r with
  | .error e => ⟨.error e, []⟩
  | .ok (ms, r1) =>
      match injectDE req ms.sm1 ms.subVals r1 with
      | .error e => ⟨.error e, []⟩
      | .ok ((sm2, sub2, num_updeg), r2) =>
          match dispStage pt req ms sm2 sub2 r2 with
          | .error e => ⟨.error e, []⟩
          | .ok ((sd1, sd2), r3) =>
              let p := samplingStage req ms.sm1 sm2 sd1 sd2 r3
              ⟨assemble req p.1.1 num_updeg, p.1.2⟩

/-- numpy's default_rng(seed): the PCG64 generator is outside this
repository; it is abstracted as a deterministic, well-behaved stream
family indexed by the seed. -/
def numpyDefaultRng (seed : ℕ) : Rng :=
  { nats := fun i => (seed + i) * (seed + 2 * i + 1) % 4294967291
  , expo := fun i => ((seed + 5 * i) % 97 : ℕ) / 10
  , unit := fun i => ((seed + 7 * i) % 100 : ℕ) / 100
  , k := 0 }

/-- One run of synthetic_data_simulation: the generator is created inside
the call from the request's seed (line 197), so the run is a function of
the loaded parameter tables and the request alone. -/
def runSimulation (pt : ParamTables) (req : Request) : SimResult :=
  synthetic_data_simulation pt req (numpyDefaultRng req.seed)

/-- Modelled from the spec: the generation-module constant naming the DE
label of up-regulated genes ("up"/"dn"/"ns" Description labels); the
constant's definition site is imported by utils.py but absent from the
sources at hand. -/
def UP_DEG : String := "up"

/-- Modelled from the spec: the DE label of down-regulated genes. -/
def DN_DEG : String := "dn"

/-- Modelled from the spec: the name of the ground-truth Description
column of the synthetic count file. -/
def GENE_DESCRIPTION_COLNAME : String := "Description"

/-- const.MetricsInput: parallel truth/score/prediction arrays. -/
structure MetricsInput where
  y_true : List Bool
  y_score : List ℚ
  y_pred : List Bool
deriving DecidableEq

/-- The default of load_metrics_input's de_score_colname parameter
(utils.py line 47); the pipeline call in core.py always overrides it. -/
def load_metrics_input_default_score_colname : String := "fdr"

/-- utils.load_metrics_input, lines 44-66, after the CSV has been read and
NaN rows dropped (file I/O stays outside the embedding): each row is the
truth-column value and the raw score of one gene.  Scores are inverted to
1 - s and the prediction compares the inverted score against the inverted
threshold. -/
def load_metrics_input (rows : List (String × ℚ))
    (de_score_threshold : ℚ) : MetricsInput :=
  let y_score := rows.map fun p => 1 - p.2
  { y_true := rows.map fun p => decide (p.1 = UP_DEG ∨ p.1 = DN_DEG)
  , y_score := y_score
  , y_pred := y_score.map fun s => decide (s > 1 - de_score_threshold) }

/-- condition.py: the analysis section of the CONDITION configuration. -/
structure AnalysisConfig where
  de_true : String
  de_score : String
  de_score_threshold : ℚ
deriving DecidableEq

/-- condition.py lines 42-48: the default analysis configuration. -/
def defaultAnalysisConfig : AnalysisConfig :=
  { de_true := GENE_DESCRIPTION_COLNAME
  , de_score := "padj"
  , de_score_threshold := 1/10 }

/-- core.py Result.set_method_values, lines 47-52: the score column name
passed to load_metrics_input is always CONDITION.analysis.de_score. -/
def metricsEngineScoreColname (cfg : AnalysisConfig) : String :=
  cfg.de_score

/-! Concrete fixtures evaluated by the witness and counterexample
theorems. -/

/-- A small concrete parameter-table fixture. -/
def pt0 : ParamTables :=
  { k_total_mean := [100, 50, 10, 200, 7, 30]
  , k_total_disp := [1/2, 1/4, 1/8, 1/3, 1/5, 1/6]
  , k_cancer_mean := [90, 60, 15, 180]
  , k_cancer_disp := [1/2, 1/4, 1/8, 1/3]
  , k_normal_mean := [80, 55, 12, 150]
  , k_normal_disp := [1/3, 1/5, 1/7, 1/9]
  , b_total_mean := [20, 40, 60, 80, 100]
  , b_total_disp := [1/2, 1/3, 1/4, 1/5, 1/6]
  , b_C_mean := [25, 45, 65]
  , b_C_disp := [1/2, 1/3, 1/4]
  , b_D_mean := [22, 42, 62]
  , b_D_disp := [1/5, 1/6, 1/7] }

/-- A concrete default-mode request: KIRC, 4 genes, 2 DE genes, 3 samples
per group, no outliers, seed 42. -/
def req0 : Request :=
  { simul_data := .KIRC, random_sampling := true, large_sample := false
  , fixedfold := false, nsample := 3, ngenes := 4, nde := 2, frac_up := 1/2
  , disp_type := .same, outlier_mode := .D, ro_prop := 5, seed := 42 }

/-- req0 with no DE genes. -/
def reqZ : Request := { req0 with nde := 0 }

/-- A fixed-fold request with nde > ngenes (one sample per group). -/
def reqF : Request :=
  { req0 with fixedfold := true, nde := 5, ngenes := 4, nsample := 1 }

/-- A default-mode request with nde > ngenes. -/
def reqI : Request := { req0 with nde := 5, ngenes := 4 }

/-- A dispersion-lowered request with the large-sample flag set. -/
def reqDL : Request := { req0 with outlier_mode := .DL, large_sample := true }

/-- A fixed-fold request with nde = 3 and frac_up = 0.9. -/
def reqC3 : Request :=
  { req0 with fixedfold := true, nde := 3, frac_up := 9/10, nsample := 1 }

/-- req0 with zero samples per group. -/
def reqN0 : Request := { req0 with nsample := 0 }

/-- A simple explicit generator state for stand-alone stage witnesses. -/
def rng0 : Rng := ⟨fun i => i % 5, fun _ => 1, fun _ => 1/2, 0⟩

/-- The table runSimulation pt0 req0 returns. -/
def t0 : GeneTable :=
  { gene_ids := [1, 2, 3, 4]
  , gene_symbols := ["LOC1", "LOC2", "LOC3", "LOC4"]
  , descriptions := ["up", "dn", "ns", "ns"]
  , col_names := ["TRT-1", "TRT-2", "TRT-3", "CTRL-1", "CTRL-2", "CTRL-3"]
  , counts :=
      [ [3618, 3795, 3976, 4161, 4350, 4543]
      , [4740, 4941, 5146, 5355, 5568, 5785]
      , [6006, 6231, 6460, 6693, 6930, 7171]
      , [7416, 7665, 7918, 8175, 8436, 8701] ] }

/-- The table runSimulation pt0 reqN0 returns: zero samples per group give
an empty count frame whose gene symbols all collapse to "LOCNone". -/
def tN0 : GeneTable :=
  { gene_ids := [1, 2, 3, 4]
  , gene_symbols := ["LOCNone", "LOCNone", "LOCNone", "LOCNone"]
  , descriptions := ["up", "dn", "ns", "ns"]
  , col_names := []
  , counts := [[], [], [], []] }

/-- The table runSimulation pt0 reqC3 returns. -/
def tC3 : GeneTable :=
  { gene_ids := [1, 2, 3, 4]
  , gene_symbols := ["LOC1", "LOC2", "LOC3", "LOC4"]
  , descriptions := ["up", "up", "dn", "ns"]
  , col_names := ["TRT-1", "CTRL-1"]
  , counts := [[2640, 2793], [2950, 3111], [3276, 3445], [3618, 3795]] }

/-- A concrete condition-2 mean vector for the DE-injection witness. -/
def sm2w : List ℚ := [100, 50, 10, 200]

/-- A concrete secondary mean vector for the DE-injection witness. -/
def sub2w : List ℚ := [1, 2]

/-- A concrete reference-mean pool with no entry within ±20 of 1000. -/
def mcW : List ℚ := [100, 200, 300, 400, 979]

/-- The dispersions paired with mcW. -/
def dcW : List ℚ := [1, 2, 3, 4, 5]

/-- One metrics row: an up-regulated gene with raw score 0.01. -/
def rowsW : List (String × ℚ) := [("up", 1/100)]

/-! Arithmetic facts about the embedded Python rounding. -/

theorem floor_le_pythonRound (x : ℚ) : ⌊x⌋ ≤ pythonRound x := by
  unfold pythonRound
  split
  · exact le_rfl
  · split
    · omega
    · split <;> omega

theorem pythonRound_le_floor_add_one (x : ℚ) : pythonRound x ≤ ⌊x⌋ + 1 := by
  unfold pythonRound
  split
  · omega
  · split
    · omega
    · split <;> omega

theorem pythonRound_nonneg {x : ℚ} (h : 0 ≤ x) : 0 ≤ pythonRound x :=
  le_trans (Int.le_floor.mpr (by exact_mod_cast h)) (floor_le_pythonRound x)

theorem pythonRound_intCast (n : ℤ) : pythonRound (n : ℚ) = n := by
  unfold pythonRound
  rw [Int.floor_intCast]
  norm_num

theorem pythonRound_le_of_le_int {x : ℚ} {n : ℤ} (h : x ≤ (n : ℚ)) :
    pythonRound x ≤ n := by
  rcases eq_or_lt_of_le h with heq | hlt
  · rw [heq, pythonRound_intCast]
  · have hf : ⌊x⌋ < n := Int.floor_lt.mpr (by exact_mod_cast hlt)
    have := pythonRound_le_floor_add_one x
    omega

theorem pythonRound_div3_le (n : ℕ) : pythonRound ((n : ℚ) / 3) ≤ (n : ℤ) := by
  apply pythonRound_le_of_le_int
  push_cast
  rw [div_le_iff₀ (by norm_num)]
  nlinarith [Nat.cast_nonneg (α := ℚ) n]

theorem pythonRound_two_thirds_le (n : ℕ) :
    pythonRound (2 * (n : ℚ) / 3) ≤ (n : ℤ) := by
  apply pythonRound_le_of_le_int
  push_cast
  rw [div_le_iff₀ (by norm_num)]
  nlinarith [Nat.cast_nonneg (α := ℚ) n]

theorem truncToInt_nonneg {q : ℚ} (h : 0 ≤ q) : 0 ≤ truncToInt q :=
  Int.tdiv_nonneg (Rat.num_nonneg.mpr h) (Int.natCast_nonneg _)

/-! Facts about the embedded index arithmetic. -/

theorem mem_intRange {i a b : ℤ} : i ∈ intRange a b ↔ a ≤ i ∧ i < b := by
  simp only [intRange, List.mem_map, List.mem_range]
  constructor
  · rintro ⟨j, hj, rfl⟩
    omega
  · rintro ⟨h1, h2⟩
    exact ⟨(i - a).toNat, by omega, by omega⟩

theorem intRange_self (a : ℤ) : intRange a a = [] := by
  simp [intRange]

theorem intRange_succ (a : ℤ) (n : ℕ) :
    intRange a (a + (n + 1)) = a :: intRange (a + 1) (a + 1 + n) := by
  simp only [intRange]
  have h1 : (a + ((n : ℤ) + 1) - a).toNat = n + 1 := by omega
  have h2 : (a + 1 + (n : ℤ) - (a + 1)).toNat = n := by omega
  rw [h1, h2, List.range_succ_eq_map, List.map_cons, List.map_map]
  refine List.cons_eq_cons.mpr ⟨by simp, ?_⟩
  apply List.map_congr_left
  intro j _
  simp only [Function.comp_apply, Nat.succ_eq_add_one]
  push_cast
  ring

theorem pyPos_of_nonneg_lt {len : ℕ} {i : ℤ} (h0 : 0 ≤ i) (h : i < (len : ℤ)) :
    pyPos len i = some i.toNat := by
  simp [pyPos, h0, h]

theorem pyPos_none_of_ge {len : ℕ} {i : ℤ} (h : (len : ℤ) ≤ i) :
    pyPos len i = none := by
  have h0 : 0 ≤ i := le_trans (Int.natCast_nonneg _) h
  simp [pyPos, h0]
  omega

/-! Facts about positional updates. -/

theorem getD_set_eq {xs : List ℚ} {i : ℕ} {v : ℚ} (h : i < xs.length) :
    (xs.set i v).getD i 0 = v := by
  simp [List.getD_eq_getElem?_getD, List.getElem?_set_self h]

theorem getD_set_ne {xs : List ℚ} {i j : ℕ} {v : ℚ} (h : i ≠ j) :
    (xs.set i v).getD j 0 = xs.getD j 0 := by
  simp [List.getD_eq_getElem?_getD, List.getElem?_set_ne h]

theorem setOpAt_ok_length (op : ℚ → ℚ → ℚ) (idxs : List ℤ) :
    ∀ (fs xs ys : List ℚ), setOpAt xs idxs fs op = .ok ys →
      ys.length = xs.length := by
  induction idxs with
  | nil =>
      intro fs xs ys h
      simp only [setOpAt] at h
      cases h
      rfl
  | cons i is ih =>
      intro fs xs ys h
      cases fs with
      | nil =>
          simp only [setOpAt] at h
          exact Except.noConfusion h
      | cons f fs2 =>
          simp only [setOpAt] at h
          cases heq : pyPos xs.length i with
          | none => rw [heq] at h; simp at h
          | some p =>
              rw [heq] at h
              have := ih fs2 _ ys h
              simpa using this

theorem setOpAt_error_of_oob (op : ℚ → ℚ → ℚ) (idxs : List ℤ) :
    ∀ (fs xs : List ℚ), (∃ i ∈ idxs, pyPos xs.length i = none) →
      ∃ e, setOpAt xs idxs fs op = .error e := by
  induction idxs with
  | nil =>
      rintro fs xs ⟨i, hi, -⟩
      cases hi
  | cons j is ih =>
      rintro fs xs ⟨i, hi, hnone⟩
      cases fs with
      | nil => exact ⟨.lengthMismatch, rfl⟩
      | cons f fs2 =>
          rcases List.mem_cons.mp hi with rfl | hmem
          · exact ⟨.indexError, by simp only [setOpAt, hnone]⟩
          · cases heq : pyPos xs.length j with
            | none => exact ⟨.indexError, by simp only [setOpAt, heq]⟩
            | some p =>
                have hlen : pyPos (xs.set p (op (xs.getD p 0) f)).length i
                    = none := by
                  rw [List.length_set]; exact hnone
                obtain ⟨e, he⟩ := ih fs2 _ ⟨i, hmem, hlen⟩
                refine ⟨e, ?_⟩
                simp only [setOpAt, heq]
                exact he

theorem setOpAt_range (op : ℚ → ℚ → ℚ) :
    ∀ (n a : ℕ) (xs fs : List ℚ), fs.length = n → a + n ≤ xs.length →
      ∃ ys, setOpAt xs (intRange (a : ℤ) ((a : ℤ) + (n : ℤ))) fs op = .ok ys ∧
        ys.length = xs.length ∧
        ∀ p, p < xs.length →
          ys.getD p 0 = if a ≤ p ∧ p < a + n then
            op (xs.getD p 0) (fs.getD (p - a) 0) else xs.getD p 0 := by
  intro n
  induction n with
  | zero =>
      intro a xs fs _ _
      refine ⟨xs, ?_, rfl, ?_⟩
      · rw [show ((a : ℤ) + ((0 : ℕ) : ℤ)) = (a : ℤ) by push_cast; ring,
          intRange_self]
        simp [setOpAt]
      · intro p _
        rw [if_neg]
        omega
  | succ m ih =>
      intro a xs fs hfs hle
      cases fs with
      | nil => simp at hfs
      | cons f fs2 =>
          have ha : a < xs.length := by omega
          have hr : intRange (a : ℤ) ((a : ℤ) + ((m + 1 : ℕ) : ℤ)) =
              (a : ℤ) :: intRange ((a : ℤ) + 1) ((a : ℤ) + 1 + (m : ℤ)) := by
            rw [show ((m + 1 : ℕ) : ℤ) = ((m : ℤ) + 1) by push_cast; ring]
            exact intRange_succ (a : ℤ) m
          have hp : pyPos xs.length (a : ℤ) = some a := by
            rw [pyPos_of_nonneg_lt (Int.natCast_nonneg a) (by exact_mod_cast ha)]
            simp
          obtain ⟨ys, hok, hlen, hchar⟩ := ih (a + 1)
            (xs.set a (op (xs.getD a 0) f)) fs2 (by simpa using hfs)
            (by rw [List.length_set]; omega)
          refine ⟨ys, ?_, by rwa [List.length_set] at hlen, ?_⟩
          · rw [hr]
            simp only [setOpAt, hp]
            push_cast at hok
            exact hok
          · intro p hple
            have hchar2 := hchar p (by rwa [List.length_set])
            by_cases h1 : p < a
            · rw [if_neg (by omega)]
              rw [if_neg (by omega)] at hchar2
              rw [hchar2, getD_set_ne (by omega)]
            · by_cases h2 : p = a
              · subst h2
                rw [if_pos (by omega)]
                rw [if_neg (by omega)] at hchar2
                rw [hchar2, getD_set_eq ha]
                simp
              · by_cases h3 : p < a + (m + 1)
                · rw [if_pos (by omega)]
                  rw [if_pos (by omega)] at hchar2
                  rw [hchar2, getD_set_ne (by omega)]
                  have : p - a = (p - (a + 1)) + 1 := by omega
                  rw [this, List.getD_cons_succ]
                · rw [if_neg (by omega)]
                  rw [if_neg (by omega)] at hchar2
                  rw [hchar2, getD_set_ne (by omega)]

/-! Facts about the sorting permutation and element-wise dispersion
lookup. -/

theorem insertIdx_length {α : Type} [LinearOrder α] (data : List α) (d : α)
    (i : ℕ) : ∀ acc : List ℕ,
      (insertIdx data d i acc).length = acc.length + 1 := by
  intro acc
  induction acc with
  | nil => rfl
  | cons j js ih =>
      simp only [insertIdx]
      split
      · rfl
      · simp only [List.length_cons, ih]

theorem foldl_insertIdx_length {α : Type} [LinearOrder α] (data : List α)
    (d : α) : ∀ (l : List ℕ) (acc : List ℕ),
      (l.foldl (fun acc i => insertIdx data d i acc) acc).length =
        acc.length + l.length := by
  intro l
  induction l with
  | nil => intro acc; simp
  | cons x xs ih =>
      intro acc
      simp only [List.foldl_cons, List.length_cons]
      rw [ih, insertIdx_length]
      omega

theorem order_length {α : Type} [LinearOrder α] (data : List α) (d : α) :
    (order data d).length = data.length := by
  unfold order
  rw [foldl_insertIdx_length]
  simp

theorem applyPerm_length (xs : List ℚ) (perm : List ℕ) :
    (applyPerm xs perm).length = perm.length := by
  simp [applyPerm]

theorem sortedVals_length (xs : List ℚ) :
    (sortedVals xs).length = xs.length := by
  rw [sortedVals, applyPerm_length, order_length]

theorem applyGetDisp_ok_length (mc dc : List ℚ) :
    ∀ (means : List ℚ) (r : Rng) (out : List ℚ × Rng),
      applyGetDisp means mc dc r = .ok out →
      out.1.length = means.length := by
  intro means
  induction means with
  | nil =>
      intro r out h
      simp only [applyGetDisp] at h
      cases h
      rfl
  | cons m ms ih =>
      intro r out h
      simp only [applyGetDisp] at h
      cases h1 : get_disp m mc dc r with
      | error e => rw [h1] at h; exact Except.noConfusion h
      | ok p =>
          obtain ⟨v, r1⟩ := p
          rw [h1] at h
          dsimp only [] at h
          cases h2 : applyGetDisp ms mc dc r1 with
          | error e =>
              rw [h2] at h
              exact Except.noConfusion h
          | ok q =>
              obtain ⟨vs, r2⟩ := q
              rw [h2] at h
              cases h
              simpa using ih r1 (vs, r2) h2

/-! The argmin scan: position of the first occurrence of the minimum. -/

theorem argminGo_spec (l : List ℚ) :
    ∀ (k m best : ℕ), best < m →
      (∀ t, t < m → l.getD best 0 ≤ l.getD t 0) →
      (∀ t, t < best → l.getD best 0 < l.getD t 0) →
      argminGo l best (List.range' m k) < m + k ∧
        (∀ t, t < m + k →
          l.getD (argminGo l best (List.range' m k)) 0 ≤ l.getD t 0) ∧
        (∀ t, t < argminGo l best (List.range' m k) →
          l.getD (argminGo l best (List.range' m k)) 0 < l.getD t 0) := by
  intro k
  induction k with
  | zero =>
      intro m best h1 h2 h3
      simp only [List.range']
      simp only [argminGo]
      exact ⟨by omega, fun t ht => h2 t (by omega), h3⟩
  | succ n ih =>
      intro m best h1 h2 h3
      rw [List.range'_succ]
      simp only [argminGo]
      by_cases hc : l.getD m 0 < l.getD best 0
      · rw [if_pos hc]
        have hmain := ih (m + 1) m (by omega)
          (fun t ht => by
            rcases Nat.lt_succ_iff_lt_or_eq.mp ht with h | h
            · exact le_of_lt (lt_of_lt_of_le hc (h2 t h))
            · subst h; exact le_rfl)
          (fun t ht => lt_of_lt_of_le hc (h2 t (by omega)))
        refine ⟨by omega, fun t ht => ?_, hmain.2.2⟩
        exact hmain.2.1 t (by omega)
      · rw [if_neg hc]
        have hmain := ih (m + 1) best (by omega)
          (fun t ht => by
            rcases Nat.lt_succ_iff_lt_or_eq.mp ht with h | h
            · exact h2 t h
            · subst h; exact le_of_not_lt hc)
          h3
        refine ⟨by omega, fun t ht => ?_, hmain.2.2⟩
        exact hmain.2.1 t (by omega)

theorem listArgmin_spec (l : List ℚ) (hne : l ≠ []) :
    listArgmin l < l.length ∧
      (∀ t, t < l.length → l.getD (listArgmin l) 0 ≤ l.getD t 0) ∧
      (∀ t, t < listArgmin l → l.getD (listArgmin l) 0 < l.getD t 0) := by
  unfold listArgmin
  cases l with
  | nil => exact absurd rfl hne
  | cons x xs =>
      rw [show (x :: xs).length = xs.length + 1 from rfl,
        List.range_eq_range', List.range'_succ]
      simp only [argminGo, if_neg (lt_irrefl _), Nat.zero_add]
      have hmain := argminGo_spec (x :: xs) xs.length 1 0 (by omega)
        (fun t ht => by
          interval_cases t
          exact le_rfl)
        (fun t ht => by omega)
      exact ⟨by have := hmain.1; omega,
        fun t ht => hmain.2.1 t (by omega), hmain.2.2⟩

/-! Shape, sign and trace facts about the sampling stage. -/

theorem getD_nonneg {l : List ℚ} (h : ∀ x ∈ l, 0 ≤ x) (i : ℕ) :
    0 ≤ l.getD i 0 := by
  by_cases hi : i < l.length
  · rw [List.getD_eq_getElem?_getD, List.getElem?_eq_getElem hi]
    exact h _ (List.getElem_mem hi)
  · rw [List.getD_eq_getElem?_getD, List.getElem?_eq_none (by omega)]
    exact le_rfl

theorem sampBlock_length (m b u : ℚ) (k : DispKind) (n : ℕ) (r : Rng) :
    (sampBlock m b u k n r).1.1.length = n := by
  simp [sampBlock, rnbinom, Rng.natList]

theorem sampBlock_nonneg (m b u : ℚ) (k : DispKind) (n : ℕ) (r : Rng) :
    ∀ c ∈ (sampBlock m b u k n r).1.1, 0 ≤ c := by
  intro c hc
  simp only [sampBlock, rnbinom, Rng.natList, List.mem_map] at hc
  obtain ⟨x, -, rfl⟩ := hc
  exact Nat.cast_nonneg _

theorem sampBlock_trace (m b u : ℚ) (k : DispKind) (n : ℕ) (r : Rng) :
    (sampBlock m b u k n r).1.2 = ⟨m, b, u, n, k⟩ := rfl

theorem osRow_length (m2 d2 m1 d1 : ℚ) (nsample one_third : ℕ)
    (h : one_third ≤ nsample) (r : Rng) :
    (osRow m2 d2 m1 d1 nsample one_third r).1.1.length = 2 * nsample := by
  simp only [osRow, List.length_append, sampBlock_length]
  omega

theorem osRow_nonneg (m2 d2 m1 d1 : ℚ) (nsample one_third : ℕ) (r : Rng) :
    ∀ c ∈ (osRow m2 d2 m1 d1 nsample one_third r).1.1, 0 ≤ c := by
  intro c hc
  simp only [osRow, List.mem_append] at hc
  rcases hc with ((h | h) | h) | h <;> exact sampBlock_nonneg _ _ _ _ _ _ _ h

theorem osRow_trace (m2 d2 m1 d1 : ℚ) (nsample one_third : ℕ) (r : Rng) :
    ∀ call ∈ (osRow m2 d2 m1 d1 nsample one_third r).1.2,
      call.kind = DispKind.fiveTimes ∨ call.kind = DispKind.nominal := by
  intro call hc
  simp only [osRow, List.mem_cons, List.mem_singleton] at hc
  rcases hc with rfl | rfl | rfl | rfl | h
  · exact Or.inl rfl
  · exact Or.inr rfl
  · exact Or.inl rfl
  · exact Or.inr rfl
  · cases h

theorem dlRow_length (m2 d2 m1 d1 : ℚ) (nsample : ℕ) (r : Rng) :
    (dlRow m2 d2 m1 d1 nsample r).1.1.length = 2 * nsample := by
  simp only [dlRow, List.length_append, sampBlock_length]
  omega

theorem dlRow_nonneg (m2 d2 m1 d1 : ℚ) (nsample : ℕ) (r : Rng) :
    ∀ c ∈ (dlRow m2 d2 m1 d1 nsample r).1.1, 0 ≤ c := by
  intro c hc
  simp only [dlRow, List.mem_append] at hc
  rcases hc with h | h <;> exact sampBlock_nonneg _ _ _ _ _ _ _ h

theorem dlRow_trace (m2 d2 m1 d1 : ℚ) (nsample : ℕ) (r : Rng) :
    ∀ call ∈ (dlRow m2 d2 m1 d1 nsample r).1.2,
      call.kind = DispKind.lowered ∧
        call.usedDisp = call.baseDisp / (45/2) := by
  intro call hc
  simp only [dlRow, List.mem_cons, List.mem_singleton] at hc
  rcases hc with rfl | rfl | h
  · exact ⟨rfl, rfl⟩
  · exact ⟨rfl, rfl⟩
  · cases h

theorem scaledCalls_length (mean disp : ℚ) :
    ∀ (scales : List ℚ) (r : Rng),
      (scaledCalls mean disp scales r).1.1.length = scales.length := by
  intro scales
  induction scales with
  | nil => intro r; rfl
  | cons s ss ih =>
      intro r
      simp only [scaledCalls, List.length_append, List.length_cons,
        sampBlock_length, ih]
      omega

theorem scaledCalls_nonneg (mean disp : ℚ) :
    ∀ (scales : List ℚ) (r : Rng),
      ∀ c ∈ (scaledCalls mean disp scales r).1.1, 0 ≤ c := by
  intro scales
  induction scales with
  | nil => intro r c hc; cases hc
  | cons s ss ih =>
      intro r c hc
      simp only [scaledCalls, List.mem_append] at hc
      rcases hc with h | h
      · exact sampBlock_nonneg _ _ _ _ _ _ _ h
      · exact ih _ _ h

theorem scaledCalls_trace (mean disp : ℚ) :
    ∀ (scales : List ℚ) (r : Rng),
      ∀ call ∈ (scaledCalls mean disp scales r).1.2,
        call.kind = DispKind.nominal := by
  intro scales
  induction scales with
  | nil => intro r call hc; cases hc
  | cons s ss ih =>
      intro r call hc
      simp only [scaledCalls, List.mem_cons] at hc
      rcases hc with rfl | h
      · rfl
      · exact ih _ _ h

theorem defRow_length (m2 d2 m1 d1 : ℚ) (rand1 rand2 : List ℚ) (r : Rng) :
    (defRow m2 d2 m1 d1 rand1 rand2 r).1.1.length =
      rand1.length + rand2.length := by
  simp only [defRow, List.length_append, scaledCalls_length]

theorem defRow_nonneg (m2 d2 m1 d1 : ℚ) (rand1 rand2 : List ℚ) (r : Rng) :
    ∀ c ∈ (defRow m2 d2 m1 d1 rand1 rand2 r).1.1, 0 ≤ c := by
  intro c hc
  simp only [defRow, List.mem_append] at hc
  rcases hc with h | h <;> exact scaledCalls_nonneg _ _ _ _ _ h

theorem defRow_trace (m2 d2 m1 d1 : ℚ) (rand1 rand2 : List ℚ) (r : Rng) :
    ∀ call ∈ (defRow m2 d2 m1 d1 rand1 rand2 r).1.2,
      call.kind = DispKind.nominal := by
  intro call hc
  simp only [defRow, List.mem_append] at hc
  rcases hc with h | h <;> exact scaledCalls_trace _ _ _ _ _ h

theorem geneLoop_length
    (rowFn : ℚ → ℚ → ℚ → ℚ → Rng → (List ℚ × List SampCall) × Rng)
    (sm2 sd2 sm1 sd1 : List ℚ) :
    ∀ (n i : ℕ) (r : Rng),
      (geneLoop rowFn sm2 sd2 sm1 sd1 i n r).1.1.length = n := by
  intro n
  induction n with
  | zero => intro i r; rfl
  | succ m ih =>
      intro i r
      simp only [geneLoop, List.length_cons, ih]

theorem geneLoop_rows_all
    (rowFn : ℚ → ℚ → ℚ → ℚ → Rng → (List ℚ × List SampCall) × Rng)
    (sm2 sd2 sm1 sd1 : List ℚ) (P : List ℚ → Prop)
    (hP : ∀ a b c d r, P ((rowFn a b c d r).1.1)) :
    ∀ (n i : ℕ) (r : Rng),
      ∀ row ∈ (geneLoop rowFn sm2 sd2 sm1 sd1 i n r).1.1, P row := by
  intro n
  induction n with
  | zero => intro i r row h; cases h
  | succ m ih =>
      intro i r row h
      simp only [geneLoop, List.mem_cons] at h
      rcases h with rfl | h
      · exact hP _ _ _ _ _
      · exact ih _ _ _ h

theorem geneLoop_trace_all
    (rowFn : ℚ → ℚ → ℚ → ℚ → Rng → (List ℚ × List SampCall) × Rng)
    (sm2 sd2 sm1 sd1 : List ℚ) (Q : SampCall → Prop)
    (hQ : ∀ a b c d r, ∀ call ∈ (rowFn a b c d r).1.2, Q call) :
    ∀ (n i : ℕ) (r : Rng),
      ∀ call ∈ (geneLoop rowFn sm2 sd2 sm1 sd1 i n r).1.2, Q call := by
  intro n
  induction n with
  | zero => intro i r call h; cases h
  | succ m ih =>
      intro i r call h
      simp only [geneLoop, List.mem_append] at h
      rcases h with h | h
      · exact hQ _ _ _ _ _ _ h
      · exact ih _ _ _ h

theorem uniformList_nonneg {r : Rng} (hwf : r.Wf) {low high : ℚ}
    (hlow : 0 ≤ low) (hle : low ≤ high) (n : ℕ) :
    ∀ x ∈ (r.uniformList low high n).1, 0 ≤ x := by
  intro x hx
  simp only [Rng.uniformList, List.mem_map] at hx
  obtain ⟨j, -, rfl⟩ := hx
  have h1 := (hwf (r.k + j)).2.1
  unfold Rng.uniformAt
  nlinarith

theorem scaleSelected_spec (counts : List (List ℚ)) (g : ℕ) (sel : List ℕ)
    (mult : List ℚ) (hmult : ∀ x ∈ mult, 0 ≤ x) :
    (scaleSelected counts g sel mult).length = counts.length ∧
      ∀ row ∈ scaleSelected counts g sel mult,
        ∃ row0 ∈ counts, row.length = row0.length ∧
          ((∀ c ∈ row0, 0 ≤ c) → ∀ c ∈ row, 0 ≤ c) := by
  refine ⟨List.length_mapIdx, ?_⟩
  intro row hrow
  rw [List.mem_iff_getElem] at hrow
  obtain ⟨i, hi, hrowEq⟩ := hrow
  simp only [scaleSelected] at hi hrowEq
  rw [List.getElem_mapIdx] at hrowEq
  have hi2 : i < counts.length := by
    simpa using hi
  refine ⟨counts[i], List.getElem_mem hi2, ?_, ?_⟩
  · rw [← hrowEq]
    simp
  · intro hnn c hc
    rw [← hrowEq] at hc
    rw [List.mem_iff_getElem] at hc
    obtain ⟨j, hj, hcEq⟩ := hc
    rw [List.getElem_mapIdx] at hcEq
    have hj2 : j < counts[i].length := by simpa using hj
    have hcell : (0:ℚ) ≤ counts[i][j] :=
      hnn _ (List.getElem_mem hj2)
    rw [← hcEq]
    cases hfind : sel.findIdx? (fun x => x == j * g + i) with
    | none =>
        simp only [hfind]
        exact_mod_cast pythonRound_nonneg hcell
    | some rank =>
        simp only [hfind]
        have hm : 0 ≤ mult.getD rank 0 := getD_nonneg hmult rank
        exact_mod_cast pythonRound_nonneg (mul_nonneg hcell hm)

theorem largePost_spec (counts : List (List ℚ)) (g nsample one_third
    four_thirds : ℕ) {r : Rng} (hwf : r.Wf) :
    (largePost counts g nsample one_third four_thirds r).1.length =
      counts.length ∧
      ∀ row ∈ (largePost counts g nsample one_third four_thirds r).1,
        ∃ row0 ∈ counts, row.length = row0.length ∧
          ((∀ c ∈ row0, 0 ≤ c) → ∀ c ∈ row, 0 ≤ c) := by
  unfold largePost
  exact scaleSelected_spec _ _ _ _
    (uniformList_nonneg (by simpa [Rng.Wf] using fun i => hwf i)
      (by norm_num) (by norm_num) _)

theorem randomOutlierPost_spec (counts : List (List ℚ)) (g nsample : ℕ)
    (ro_prop : ℚ) {r : Rng} (hwf : r.Wf) :
    (randomOutlierPost counts g nsample ro_prop r).1.length =
      counts.length ∧
      ∀ row ∈ (randomOutlierPost counts g nsample ro_prop r).1,
        ∃ row0 ∈ counts, row.length = row0.length ∧
          ((∀ c ∈ row0, 0 ≤ c) → ∀ c ∈ row, 0 ≤ c) := by
  unfold randomOutlierPost
  exact scaleSelected_spec _ _ _ _
    (uniformList_nonneg (by simpa [Rng.Wf] using fun i => hwf i)
      (by norm_num) (by norm_num) _)

theorem one_third_le (nsample : ℕ) :
    (pythonRound ((nsample : ℚ) / 3)).toNat ≤ nsample := by
  have := pythonRound_div3_le nsample
  omega

/-- Shape and sign invariant of a counts matrix: g rows, w cells per row,
all cells nonnegative. -/
def RowsSpec (rows : List (List ℚ)) (g w : ℕ) : Prop :=
  rows.length = g ∧ (∀ row ∈ rows, row.length = w) ∧
    (∀ row ∈ rows, ∀ c ∈ row, 0 ≤ c)

theorem rowsSpec_of_post {rows rows2 : List (List ℚ)} {g w : ℕ}
    (h1 : RowsSpec rows g w)
    (h2 : rows2.length = rows.length ∧ ∀ row ∈ rows2,
      ∃ row0 ∈ rows, row.length = row0.length ∧
        ((∀ c ∈ row0, 0 ≤ c) → ∀ c ∈ row, 0 ≤ c)) :
    RowsSpec rows2 g w := by
  obtain ⟨hl, hw, hn⟩ := h1
  refine ⟨h2.1.trans hl, ?_, ?_⟩
  · intro row hrow
    obtain ⟨row0, hmem, hlen, -⟩ := h2.2 row hrow
    rw [hlen]
    exact hw _ hmem
  · intro row hrow
    obtain ⟨row0, hmem, -, himp⟩ := h2.2 row hrow
    exact himp (hn _ hmem)

theorem Rng.wf_advance {r : Rng} (h : r.Wf) (n : ℕ) : (r.advance n).Wf := h

/-- Two generator states carrying the same underlying streams. -/
def StreamsEq (r1 r2 : Rng) : Prop :=
  r1.nats = r2.nats ∧ r1.expo = r2.expo ∧ r1.unit = r2.unit

theorem StreamsEq.wf {r1 r2 : Rng} (h : StreamsEq r1 r2) (hw : r1.Wf) :
    r2.Wf := by
  intro i
  rw [← h.2.1, ← h.2.2]
  exact hw i

theorem streamsEq_advance (r : Rng) (n : ℕ) : StreamsEq r (r.advance n) :=
  ⟨rfl, rfl, rfl⟩

theorem streamsEq_trans {r1 r2 r3 : Rng} (h1 : StreamsEq r1 r2)
    (h2 : StreamsEq r2 r3) : StreamsEq r1 r3 :=
  ⟨h1.1.trans h2.1, h1.2.1.trans h2.2.1, h1.2.2.trans h2.2.2⟩

theorem scaledCalls_streams (mean disp : ℚ) :
    ∀ (scales : List ℚ) (r : Rng),
      StreamsEq r (scaledCalls mean disp scales r).2 := by
  intro scales
  induction scales with
  | nil => intro r; exact ⟨rfl, rfl, rfl⟩
  | cons s ss ih =>
      intro r
      exact streamsEq_trans (streamsEq_advance r 1) (ih _)

theorem geneLoop_streams
    (rowFn : ℚ → ℚ → ℚ → ℚ → Rng → (List ℚ × List SampCall) × Rng)
    (sm2 sd2 sm1 sd1 : List ℚ)
    (hrow : ∀ a b c d r, StreamsEq r ((rowFn a b c d r).2)) :
    ∀ (n i : ℕ) (r : Rng),
      StreamsEq r (geneLoop rowFn sm2 sd2 sm1 sd1 i n r).2 := by
  intro n
  induction n with
  | zero => intro i r; exact ⟨rfl, rfl, rfl⟩
  | succ m ih =>
      intro i r
      exact streamsEq_trans (hrow _ _ _ _ r) (ih _ _)

theorem osRow_streams (m2 d2 m1 d1 : ℚ) (nsample one_third : ℕ) (r : Rng) :
    StreamsEq r (osRow m2 d2 m1 d1 nsample one_third r).2 :=
  ⟨rfl, rfl, rfl⟩

theorem dlRow_streams (m2 d2 m1 d1 : ℚ) (nsample : ℕ) (r : Rng) :
    StreamsEq r (dlRow m2 d2 m1 d1 nsample r).2 :=
  ⟨rfl, rfl, rfl⟩

theorem defRow_streams (m2 d2 m1 d1 : ℚ) (rand1 rand2 : List ℚ) (r : Rng) :
    StreamsEq r (defRow m2 d2 m1 d1 rand1 rand2 r).2 :=
  streamsEq_trans (scaledCalls_streams _ _ _ _) (scaledCalls_streams _ _ _ _)

/-- The counts matrix produced by the sampling branch always has one row
per gene and 2*nsample cells per row, and (for a well-behaved generator)
every cell is nonnegative; the emerging generator carries the original
streams. -/
theorem baseSampling_spec (req : Request) (sm1 sm2 sd1 sd2 : List ℚ)
    {r : Rng} (hwf : r.Wf) :
    RowsSpec (baseSampling req sm1 sm2 sd1 sd2 r).1.1 req.ngenes
      (2 * req.nsample) ∧
      StreamsEq r (baseSampling req sm1 sm2 sd1 sd2 r).2 := by
  have hot := one_third_le req.nsample
  have hos : ∀ (r2 : Rng), RowsSpec
      (geneLoop (fun a b c d => osRow a b c d req.nsample
          (pythonRound ((req.nsample : ℚ) / 3)).toNat)
        sm2 sd2 sm1 sd1 0 req.ngenes r2).1.1 req.ngenes (2 * req.nsample) :=
    fun r2 => ⟨geneLoop_length _ _ _ _ _ _ _ _,
      geneLoop_rows_all _ _ _ _ _ _
        (fun a b c d r3 => osRow_length a b c d _ _ hot r3) _ _ _,
      geneLoop_rows_all _ _ _ _ _ _
        (fun a b c d r3 => osRow_nonneg a b c d _ _ r3) _ _ _⟩
  have hosStreams : ∀ (r2 : Rng), StreamsEq r2
      (geneLoop (fun a b c d => osRow a b c d req.nsample
          (pythonRound ((req.nsample : ℚ) / 3)).toNat)
        sm2 sd2 sm1 sd1 0 req.ngenes r2).2 :=
    fun r2 => geneLoop_streams _ _ _ _ _
      (fun a b c d r3 => osRow_streams a b c d _ _ r3) _ _ _
  have hdl : ∀ (r2 : Rng), RowsSpec
      (geneLoop (fun a b c d => dlRow a b c d req.nsample)
        sm2 sd2 sm1 sd1 0 req.ngenes r2).1.1 req.ngenes (2 * req.nsample) :=
    fun r2 => ⟨geneLoop_length _ _ _ _ _ _ _ _,
      geneLoop_rows_all _ _ _ _ _ _
        (fun a b c d r3 => dlRow_length a b c d _ r3) _ _ _,
      geneLoop_rows_all _ _ _ _ _ _
        (fun a b c d r3 => dlRow_nonneg a b c d _ r3) _ _ _⟩
  have hdef : ∀ (rand1 rand2 : List ℚ) (r2 : Rng),
      rand1.length = req.nsample → rand2.length = req.nsample →
      RowsSpec (geneLoop (fun a b c d => defRow a b c d rand1 rand2)
        sm2 sd2 sm1 sd1 0 req.ngenes r2).1.1 req.ngenes (2 * req.nsample) :=
    fun rand1 rand2 r2 hr1 hr2 => ⟨geneLoop_length _ _ _ _ _ _ _ _,
      geneLoop_rows_all _ _ _ _ _ _
        (fun a b c d r3 => by
          rw [defRow_length, hr1, hr2]; omega) _ _ _,
      geneLoop_rows_all _ _ _ _ _ _
        (fun a b c d r3 => defRow_nonneg a b c d _ _ r3) _ _ _⟩
  have hdefStreams : ∀ (rand1 rand2 : List ℚ) (r2 : Rng), StreamsEq r2
      (geneLoop (fun a b c d => defRow a b c d rand1 rand2)
        sm2 sd2 sm1 sd1 0 req.ngenes r2).2 :=
    fun rand1 rand2 r2 => geneLoop_streams _ _ _ _ _
      (fun a b c d r3 => defRow_streams a b c d _ _ r3) _ _ _
  by_cases h1 : req.outlier_mode = Outlier.OS ∨ req.large_sample = true
  · by_cases h2 : req.large_sample = true
    · have heq : baseSampling req sm1 sm2 sd1 sd2 r =
          (let p := geneLoop (fun a b c d => osRow a b c d req.nsample
              (pythonRound ((req.nsample : ℚ) / 3)).toNat)
            sm2 sd2 sm1 sd1 0 req.ngenes r
          let q := largePost p.1.1 req.ngenes req.nsample
            (pythonRound ((req.nsample : ℚ) / 3)).toNat
            (req.nsample + (pythonRound ((req.nsample : ℚ) / 3)).toNat) p.2
          ((q.1, p.1.2), q.2)) := by
        simp only [baseSampling, if_pos h1, if_pos h2]
      rw [heq]
      refine ⟨rowsSpec_of_post (hos r) ?_,
        streamsEq_trans (hosStreams r)
          (streamsEq_trans (streamsEq_advance _ _) (streamsEq_advance _ _))⟩
      exact largePost_spec _ _ _ _ _ ((hosStreams r).wf hwf)
    · have heq : baseSampling req sm1 sm2 sd1 sd2 r =
          geneLoop (fun a b c d => osRow a b c d req.nsample
              (pythonRound ((req.nsample : ℚ) / 3)).toNat)
            sm2 sd2 sm1 sd1 0 req.ngenes r := by
        simp only [baseSampling, if_pos h1, if_neg h2]
      rw [heq]
      exact ⟨hos r, hosStreams r⟩
  · by_cases h2 : req.outlier_mode = Outlier.DL
    · have heq : baseSampling req sm1 sm2 sd1 sd2 r =
          geneLoop (fun a b c d => dlRow a b c d req.nsample)
            sm2 sd2 sm1 sd1 0 req.ngenes r := by
        simp only [baseSampling, if_neg h1, if_pos h2]
      rw [heq]
      refine ⟨hdl r, ?_⟩
      exact geneLoop_streams _ _ _ _ _
        (fun a b c d r3 => dlRow_streams a b c d _ r3) _ _ _
    · by_cases h3 : req.random_sampling = true
      · have heq : baseSampling req sm1 sm2 sd1 sd2 r =
            geneLoop (fun a b c d => defRow a b c d
                (r.uniformList (7/10) (13/10) req.nsample).1
                ((r.advance req.nsample).uniformList (7/10) (13/10)
                  req.nsample).1)
              sm2 sd2 sm1 sd1 0 req.ngenes
              ((r.advance req.nsample).advance req.nsample) := by
          simp only [baseSampling, if_neg h1, if_neg h2, if_pos h3,
            Rng.uniformList]
        rw [heq]
        refine ⟨hdef _ _ _ (by simp [Rng.uniformList])
          (by simp [Rng.uniformList]), ?_⟩
        exact streamsEq_trans (streamsEq_advance _ _)
          (streamsEq_trans (streamsEq_advance _ _) (hdefStreams _ _ _))
      · have heq : baseSampling req sm1 sm2 sd1 sd2 r =
            geneLoop (fun a b c d => defRow a b c d
                (List.replicate req.nsample 1)
                (List.replicate req.nsample 1))
              sm2 sd2 sm1 sd1 0 req.ngenes r := by
          simp only [baseSampling, if_neg h1, if_neg h2, if_neg h3]
        rw [heq]
        exact ⟨hdef _ _ _ (by simp) (by simp), hdefStreams _ _ _⟩

/-- The full sampling stage preserves the counts-shape invariant. -/
theorem samplingStage_spec (req : Request) (sm1 sm2 sd1 sd2 : List ℚ)
    {r : Rng} (hwf : r.Wf) :
    RowsSpec (samplingStage req sm1 sm2 sd1 sd2 r).1.1 req.ngenes
      (2 * req.nsample) := by
  obtain ⟨hbase, hstreams⟩ := baseSampling_spec req sm1 sm2 sd1 sd2 hwf
  unfold samplingStage
  by_cases hR : req.outlier_mode = Outlier.R
  · rw [if_pos hR]
    exact rowsSpec_of_post hbase
      (randomOutlierPost_spec _ _ _ _ (hstreams.wf hwf))
  · rw [if_neg hR]
    exact hbase

/-- The trace is unaffected by the random-outlier post-processing. -/
theorem samplingStage_trace (req : Request) (sm1 sm2 sd1 sd2 : List ℚ)
    (r : Rng) :
    (samplingStage req sm1 sm2 sd1 sd2 r).1.2 =
      (baseSampling req sm1 sm2 sd1 sd2 r).1.2 := by
  unfold samplingStage
  by_cases hR : req.outlier_mode = Outlier.R
  · rw [if_pos hR]
  · rw [if_neg hR]

/-- In DL mode without the large-sample flag, every sampling call is a
lowered-dispersion call at the assigned dispersion divided by 22.5. -/
theorem baseSampling_trace_dl (req : Request) (sm1 sm2 sd1 sd2 : List ℚ)
    (r : Rng) (hdl : req.outlier_mode = Outlier.DL)
    (hls : req.large_sample = false) :
    ∀ call ∈ (baseSampling req sm1 sm2 sd1 sd2 r).1.2,
      call.kind = DispKind.lowered ∧
        call.usedDisp = call.baseDisp / (45/2) := by
  have h1 : ¬(req.outlier_mode = Outlier.OS ∨ req.large_sample = true) := by
    rw [hdl, hls]
    simp
  have heq : baseSampling req sm1 sm2 sd1 sd2 r =
      geneLoop (fun a b c d => dlRow a b c d req.nsample)
        sm2 sd2 sm1 sd1 0 req.ngenes r := by
    simp only [baseSampling, if_neg h1, if_pos hdl]
  rw [heq]
  exact geneLoop_trace_all _ _ _ _ _ _
    (fun a b c d r3 => dlRow_trace a b c d _ r3) _ _ _

/-- In OS mode no sampling call uses a lowered dispersion. -/
theorem baseSampling_trace_os (req : Request) (sm1 sm2 sd1 sd2 : List ℚ)
    (r : Rng) (hos : req.outlier_mode = Outlier.OS) :
    ∀ call ∈ (baseSampling req sm1 sm2 sd1 sd2 r).1.2,
      call.kind ≠ DispKind.lowered := by
  have h1 : req.outlier_mode = Outlier.OS ∨ req.large_sample = true :=
    Or.inl hos
  have hcalls : ∀ call ∈ (geneLoop (fun a b c d => osRow a b c d req.nsample
      (pythonRound ((req.nsample : ℚ) / 3)).toNat)
        sm2 sd2 sm1 sd1 0 req.ngenes r).1.2, call.kind ≠ DispKind.lowered := by
    intro call hc
    rcases geneLoop_trace_all _ _ _ _ _ _
      (fun a b c d r3 => osRow_trace a b c d _ _ r3) _ _ _ call hc with
      h | h <;> simp [h]
  by_cases h2 : req.large_sample = true
  · have heq : (baseSampling req sm1 sm2 sd1 sd2 r).1.2 =
        (geneLoop (fun a b c d => osRow a b c d req.nsample
            (pythonRound ((req.nsample : ℚ) / 3)).toNat)
          sm2 sd2 sm1 sd1 0 req.ngenes r).1.2 := by
      simp only [baseSampling, if_pos h1, if_pos h2]
    rw [heq]
    exact hcalls
  · have heq : baseSampling req sm1 sm2 sd1 sd2 r =
        geneLoop (fun a b c d => osRow a b c d req.nsample
            (pythonRound ((req.nsample : ℚ) / 3)).toNat)
          sm2 sd2 sm1 sd1 0 req.ngenes r := by
      simp only [baseSampling, if_pos h1, if_neg h2]
    rw [heq]
    exact hcalls

/-! Facts about the base mean assignment. -/

theorem sampleSeries_ok_spec {pool : List ℚ} {n : ℕ} {r : Rng}
    {out : (List ℕ × List ℚ) × Rng} (h : sampleSeries pool n r = .ok out) :
    out.1.1.length = n ∧ out.1.2.length = n := by
  unfold sampleSeries at h
  split at h
  · cases h
    simp
  · exact Except.noConfusion h

theorem sampleSeries_ok_of_le {pool : List ℚ} {n : ℕ} (r : Rng)
    (h : n ≤ pool.length) :
    ∃ out, sampleSeries pool n r = .ok out := by
  unfold sampleSeries
  rw [if_pos h]
  exact ⟨_, rfl⟩

theorem meansStage_ok_spec {pt : ParamTables} {req : Request} {r : Rng}
    {ms : Means} {r1 : Rng} (h : meansStage pt req r = .ok (ms, r1)) :
    ms.sm1.length = req.ngenes ∧ ms.pos1.length = req.ngenes ∧
      ((req.simul_data = Simul.mKdB ∨ req.simul_data = Simul.mBdK) →
        ms.subVals.length = req.ngenes) := by
  unfold meansStage at h
  cases hsd : req.simul_data <;> rw [hsd] at h
  case KIRC =>
      cases h1 : sampleSeries pt.k_total_mean req.ngenes r with
      | error e => rw [h1] at h; exact Except.noConfusion h
      | ok p =>
          obtain ⟨⟨ps, vs⟩, r2⟩ := p
          rw [h1] at h
          cases h
          have := sampleSeries_ok_spec h1
          exact ⟨this.2, this.1, by simp⟩
  case Bottomly =>
      cases h1 : sampleSeries pt.b_total_mean req.ngenes r with
      | error e => rw [h1] at h; exact Except.noConfusion h
      | ok p =>
          obtain ⟨⟨ps, vs⟩, r2⟩ := p
          rw [h1] at h
          cases h
          have := sampleSeries_ok_spec h1
          exact ⟨this.2, this.1, by simp⟩
  case mKdB =>
      cases h1 : sampleSeries pt.k_total_mean req.ngenes r with
      | error e => rw [h1] at h; exact Except.noConfusion h
      | ok p =>
          obtain ⟨⟨ps, vs⟩, r2⟩ := p
          rw [h1] at h
          dsimp only [] at h
          cases h2 : sampleSeries pt.b_total_mean req.ngenes r2 with
          | error e => rw [h2] at h; exact Except.noConfusion h
          | ok q =>
              obtain ⟨⟨qs, ws⟩, r3⟩ := q
              rw [h2] at h
              cases h
              have ha := sampleSeries_ok_spec h1
              have hb := sampleSeries_ok_spec h2
              exact ⟨ha.2, ha.1, fun _ => hb.2⟩
  case mBdK =>
      cases h1 : sampleSeries pt.b_total_mean req.ngenes r with
      | error e => rw [h1] at h; exact Except.noConfusion h
      | ok p =>
          obtain ⟨⟨ps, vs⟩, r2⟩ := p
          rw [h1] at h
          dsimp only [] at h
          cases h2 : sampleSeries pt.k_total_mean req.ngenes r2 with
          | error e => rw [h2] at h; exact Except.noConfusion h
          | ok q =>
              obtain ⟨⟨qs, ws⟩, r3⟩ := q
              rw [h2] at h
              cases h
              have ha := sampleSeries_ok_spec h1
              have hb := sampleSeries_ok_spec h2
              exact ⟨ha.2, ha.1, fun _ => hb.2⟩

theorem meansStage_ok_exists {pt : ParamTables} {req : Request} (r : Rng)
    (hk : req.ngenes ≤ pt.k_total_mean.length)
    (hb : req.ngenes ≤ pt.b_total_mean.length) :
    ∃ ms r1, meansStage pt req r = .ok (ms, r1) := by
  unfold meansStage
  cases req.simul_data
  case KIRC =>
      obtain ⟨out, hout⟩ := sampleSeries_ok_of_le r hk
      rw [hout]
      exact ⟨_, _, rfl⟩
  case Bottomly =>
      obtain ⟨out, hout⟩ := sampleSeries_ok_of_le r hb
      rw [hout]
      exact ⟨_, _, rfl⟩
  case mKdB =>
      obtain ⟨⟨⟨ps, vs⟩, r2⟩, hout⟩ := sampleSeries_ok_of_le r hk
      rw [hout]
      dsimp only []
      obtain ⟨⟨⟨qs, ws⟩, r3⟩, hout2⟩ := sampleSeries_ok_of_le r2 hb
      rw [hout2]
      exact ⟨_, _, rfl⟩
  case mBdK =>
      obtain ⟨⟨⟨ps, vs⟩, r2⟩, hout⟩ := sampleSeries_ok_of_le r hb
      rw [hout]
      dsimp only []
      obtain ⟨⟨⟨qs, ws⟩, r3⟩, hout2⟩ := sampleSeries_ok_of_le r2 hk
      rw [hout2]
      exact ⟨_, _, rfl⟩

/-! Facts about the DE-injection stage. -/

theorem mulSlice_length (xs : List ℚ) (lo hi : ℕ) (c : ℚ) :
    (mulSlice xs lo hi c).length = xs.length := by
  simp [mulSlice]

theorem divSlice_length (xs : List ℚ) (lo hi : ℕ) (c : ℚ) :
    (divSlice xs lo hi c).length = xs.length := by
  simp [divSlice]

theorem injectDE_zero {req : Request} (sm2 sub2 : List ℚ) (r : Rng)
    (h0 : req.nde = 0) :
    injectDE req sm2 sub2 r = .ok ((sm2, sub2, none), r) := by
  unfold injectDE
  rw [if_pos h0]

theorem injectDE_ok_spec {req : Request} {sm2 sub2 : List ℚ} {r : Rng}
    {out : (List ℚ × List ℚ × Option ℤ) × Rng}
    (h : injectDE req sm2 sub2 r = .ok out) :
    out.1.1.length = sm2.length ∧
      out.1.2.2 = (if req.nde = 0 then none
        else if req.fixedfold then some (pythonRound (2 * (req.nde : ℚ) / 3))
        else some (pythonRound ((req.nde : ℚ) * req.frac_up))) := by
  unfold injectDE at h
  by_cases h0 : req.nde = 0
  · rw [if_pos h0] at h
    cases h
    rw [if_pos h0]
    exact ⟨rfl, rfl⟩
  · rw [if_neg h0] at h
    rw [if_neg h0]
    by_cases hff : req.fixedfold = true
    · rw [if_pos hff] at h
      rw [if_pos hff]
      by_cases hkirc : req.simul_data ≠ Simul.KIRC
      · rw [if_pos hkirc] at h
        exact Except.noConfusion h
      · rw [if_neg hkirc] at h
        cases h
        refine ⟨?_, rfl⟩
        simp [divSlice_length, mulSlice_length]
    · rw [if_neg hff] at h
      rw [if_neg hff]
      dsimp only [] at h
      cases h1 : setOpAt sm2 (intRange 0 (pythonRound ((req.nde : ℚ) *
          req.frac_up)))
          ((r.expoList (intRange 0 (pythonRound ((req.nde : ℚ) *
            req.frac_up))).length).1.map (· + floorFor req.nsample))
          (· * ·) with
      | error e => rw [h1] at h; exact Except.noConfusion h
      | ok s1 =>
          rw [h1] at h
          dsimp only [] at h
          cases h2 : setOpAt s1 (intRange (pythonRound ((req.nde : ℚ) *
              req.frac_up)) req.nde)
              (((r.expoList (intRange 0 (pythonRound ((req.nde : ℚ) *
                req.frac_up))).length).2.expoList
                (intRange (pythonRound ((req.nde : ℚ) * req.frac_up))
                  req.nde).length).1.map (· + floorFor req.nsample))
              (· / ·) with
          | error e => rw [h2] at h; exact Except.noConfusion h
          | ok s2 =>
              rw [h2] at h
              dsimp only [] at h
              have hs2 : s2.length = sm2.length := by
                rw [setOpAt_ok_length _ _ _ _ _ h2,
                  setOpAt_ok_length _ _ _ _ _ h1]
              by_cases hhy : req.simul_data = Simul.mKdB ∨
                  req.simul_data = Simul.mBdK
              · rw [if_pos hhy] at h
                cases h3 : setOpAt sub2 (intRange 0 (pythonRound
                    ((req.nde : ℚ) * req.frac_up)))
                    ((r.expoList (intRange 0 (pythonRound ((req.nde : ℚ) *
                      req.frac_up))).length).1.map (· + floorFor req.nsample))
                    (· * ·) with
                | error e => rw [h3] at h; exact Except.noConfusion h
                | ok t1 =>
                    rw [h3] at h
                    dsimp only [] at h
                    cases h4 : setOpAt t1 (intRange (pythonRound
                        ((req.nde : ℚ) * req.frac_up)) req.nde)
                        (((r.expoList (intRange 0 (pythonRound ((req.nde : ℚ) *
                          req.frac_up))).length).2.expoList
                          (intRange (pythonRound ((req.nde : ℚ) *
                            req.frac_up)) req.nde).length).1.map
                          (· + floorFor req.nsample))
                        (· / ·) with
                    | error e => rw [h4] at h; exact Except.noConfusion h
                    | ok t2 =>
                        rw [h4] at h
                        cases h
                        exact ⟨hs2, rfl⟩
              · rw [if_neg hhy] at h
                cases h
                exact ⟨hs2, rfl⟩

theorem injectDE_error_of_gt {req : Request} (sm2 sub2 : List ℚ) (r : Rng)
    (hff : req.fixedfold = false) (hlen : sm2.length < req.nde) :
    ∃ e, injectDE req sm2 sub2 r = .error e := by
  have h0 : req.nde ≠ 0 := by omega
  unfold injectDE
  rw [if_neg h0, if_neg (by simp [hff])]
  dsimp only []
  by_cases hu : (sm2.length : ℤ) < pythonRound ((req.nde : ℚ) * req.frac_up)
  · obtain ⟨e, he⟩ := setOpAt_error_of_oob (· * ·)
      (intRange 0 (pythonRound ((req.nde : ℚ) * req.frac_up))) _ sm2
      ⟨(sm2.length : ℤ), mem_intRange.mpr ⟨Int.natCast_nonneg _, hu⟩,
        pyPos_none_of_ge le_rfl⟩
    rw [he]
    exact ⟨e, rfl⟩
  · cases h1 : setOpAt sm2 (intRange 0 (pythonRound ((req.nde : ℚ) *
        req.frac_up)))
        ((r.expoList (intRange 0 (pythonRound ((req.nde : ℚ) *
          req.frac_up))).length).1.map (· + floorFor req.nsample))
        (· * ·) with
    | error e => exact ⟨e, rfl⟩
    | ok s1 =>
        have hs1 : s1.length = sm2.length := setOpAt_ok_length _ _ _ _ _ h1
        obtain ⟨e, he⟩ := setOpAt_error_of_oob (· / ·)
          (intRange (pythonRound ((req.nde : ℚ) * req.frac_up)) req.nde)
          (((r.expoList (intRange 0 (pythonRound ((req.nde : ℚ) *
            req.frac_up))).length).2.expoList
            (intRange (pythonRound ((req.nde : ℚ) * req.frac_up))
              req.nde).length).1.map (· + floorFor req.nsample)) s1
          ⟨(sm2.length : ℤ),
            mem_intRange.mpr ⟨by omega, by exact_mod_cast hlen⟩,
            by rw [hs1]; exact pyPos_none_of_ge le_rfl⟩
        dsimp only []
        rw [he]
        exact ⟨e, rfl⟩

/-! Facts about the dispersion stage. -/

theorem dispStage_same_ok (pt : ParamTables) (req : Request) (ms : Means)
    (sm2 sub2 : List ℚ) (r : Rng) (hdt : req.disp_type = Disp.same) :
    ∃ d1, dispStage pt req ms sm2 sub2 r = .ok ((d1, d1), r) := by
  unfold dispStage
  rw [hdt]
  exact ⟨_, rfl⟩

theorem dispStage_ok_lengths {pt : ParamTables} {req : Request} {ms : Means}
    {sm2 sub2 : List ℚ} {r : Rng} {out : (List ℚ × List ℚ) × Rng}
    (h : dispStage pt req ms sm2 sub2 r = .ok out)
    (hsm1 : ms.sm1.length = req.ngenes)
    (hpos : ms.pos1.length = req.ngenes)
    (hsm2 : sm2.length = req.ngenes) :
    out.1.1.length = req.ngenes ∧ out.1.2.length = req.ngenes := by
  unfold dispStage at h
  cases hdt : req.disp_type <;> rw [hdt] at h
  case same =>
      cases h
      cases hsd : req.simul_data
      case KIRC =>
          constructor <;> simp [hpos]
      case Bottomly =>
          constructor <;> simp [hpos]
      case mKdB =>
          constructor <;>
            simp [applyPerm, order_length, hsm1]
      case mBdK =>
          constructor <;>
            simp [applyPerm, order_length, hsm1]
  case different =>
      cases hsd : req.simul_data <;> rw [hsd] at h
      case KIRC =>
          cases h1 : applyGetDisp ms.sm1 (refMean1 pt Simul.KIRC)
              (refDisp1 pt Simul.KIRC) r with
          | error e => rw [h1] at h; exact Except.noConfusion h
          | ok p =>
              obtain ⟨d1, r1⟩ := p
              rw [h1] at h
              dsimp only [] at h
              cases h2 : applyGetDisp ms.sm1 (refMean2 pt Simul.KIRC)
                  (refDisp2 pt Simul.KIRC) r1 with
              | error e => rw [h2] at h; exact Except.noConfusion h
              | ok q =>
                  obtain ⟨d2, r2⟩ := q
                  rw [h2] at h
                  cases h
                  have ha := applyGetDisp_ok_length _ _ _ _ _ h1
                  have hb := applyGetDisp_ok_length _ _ _ _ _ h2
                  simp only [] at ha hb
                  exact ⟨by rw [ha, hsm1], by rw [hb, hsm1]⟩
      case Bottomly =>
          cases h1 : applyGetDisp ms.sm1 (refMean1 pt Simul.Bottomly)
              (refDisp1 pt Simul.Bottomly) r with
          | error e => rw [h1] at h; exact Except.noConfusion h
          | ok p =>
              obtain ⟨d1, r1⟩ := p
              rw [h1] at h
              dsimp only [] at h
              cases h2 : applyGetDisp ms.sm1 (refMean2 pt Simul.Bottomly)
                  (refDisp2 pt Simul.Bottomly) r1 with
              | error e => rw [h2] at h; exact Except.noConfusion h
              | ok q =>
                  obtain ⟨d2, r2⟩ := q
                  rw [h2] at h
                  cases h
                  have ha := applyGetDisp_ok_length _ _ _ _ _ h1
                  have hb := applyGetDisp_ok_length _ _ _ _ _ h2
                  simp only [] at ha hb
                  exact ⟨by rw [ha, hsm1], by rw [hb, hsm1]⟩
      case mKdB =>
          cases h1 : applyGetDisp (sortedVals ms.subVals)
              (refMean1 pt Simul.mKdB) (refDisp1 pt Simul.mKdB) r with
          | error e => rw [h1] at h; exact Except.noConfusion h
          | ok p =>
              obtain ⟨d1, r1⟩ := p
              rw [h1] at h
              dsimp only [] at h
              cases h2 : applyGetDisp (sortedVals sub2)
                  (refMean2 pt Simul.mKdB) (refDisp2 pt Simul.mKdB) r1 with
              | error e => rw [h2] at h; exact Except.noConfusion h
              | ok q =>
                  obtain ⟨d2, r2⟩ := q
                  rw [h2] at h
                  cases h
                  constructor <;>
                    simp [applyPerm_length, order_length, hsm1, hsm2]
      case mBdK =>
          cases h1 : applyGetDisp (sortedVals ms.subVals)
              (refMean1 pt Simul.mBdK) (refDisp1 pt Simul.mBdK) r with
          | error e => rw [h1] at h; exact Except.noConfusion h
          | ok p =>
              obtain ⟨d1, r1⟩ := p
              rw [h1] at h
              dsimp only [] at h
              cases h2 : applyGetDisp (sortedVals sub2)
                  (refMean2 pt Simul.mBdK) (refDisp2 pt Simul.mBdK) r1 with
              | error e => rw [h2] at h; exact Except.noConfusion h
              | ok q =>
                  obtain ⟨d2, r2⟩ := q
                  rw [h2] at h
                  cases h
                  constructor <;>
                    simp [applyPerm_length, order_length, hsm1, hsm2]

/-! Facts about the assembly stage. -/

theorem assemble_none (req : Request) (counts : List (List ℚ)) :
    assemble req counts none = .error .nameError := rfl

theorem assemble_ok_spec {req : Request} {counts : List (List ℚ)} {u : ℤ}
    {t : GeneTable} (h : assemble req counts (some u) = .ok t) :
    u.toNat + ((req.nde : ℤ) - u).toNat +
        ((counts.length : ℤ) - (req.nde : ℤ)).toNat = counts.length ∧
      t.gene_ids.length = counts.length ∧
      t.descriptions.length = counts.length ∧
      t.col_names.length = 2 * req.nsample ∧
      t.counts = counts.map (fun row => row.map truncToInt) ∧
      t.descriptions.count "up" = u.toNat ∧
      t.descriptions.count "dn" = ((req.nde : ℤ) - u).toNat ∧
      t.descriptions.count "ns" =
        ((counts.length : ℤ) - (req.nde : ℤ)).toNat := by
  unfold assemble at h
  dsimp only [] at h
  split at h
  · rename_i hlen
    cases h
    simp only [List.length_append, List.length_replicate] at hlen
    refine ⟨by omega, by simp, ?_, ?_, rfl, ?_, ?_, ?_⟩
    · simp only [List.length_append, List.length_replicate]
      omega
    · simp only [List.length_append, List.length_map, List.length_range]
      omega
    · simp [List.count_append, List.count_replicate]
    · simp [List.count_append, List.count_replicate]
    · simp [List.count_append, List.count_replicate]
  · exact Except.noConfusion h

theorem assemble_mismatch {req : Request} {counts : List (List ℚ)} {u : ℤ}
    (hne : u.toNat + ((req.nde : ℤ) - u).toNat +
      ((counts.length : ℤ) - (req.nde : ℤ)).toNat ≠ counts.length) :
    assemble req counts (some u) = .error .lengthMismatch := by
  unfold assemble
  dsimp only []
  rw [if_neg]
  simp only [List.length_append, List.length_replicate]
  exact hne

/-! Stream preservation through the stages. -/

theorem sampleSeries_ok_streams {pool : List ℚ} {n : ℕ} {r : Rng}
    {out : (List ℕ × List ℚ) × Rng} (h : sampleSeries pool n r = .ok out) :
    StreamsEq r out.2 := by
  unfold sampleSeries at h
  split at h
  · cases h
    exact streamsEq_advance _ _
  · exact Except.noConfusion h

theorem meansStage_ok_streams {pt : ParamTables} {req : Request} {r : Rng}
    {ms : Means} {r1 : Rng} (h : meansStage pt req r = .ok (ms, r1)) :
    StreamsEq r r1 := by
  unfold meansStage at h
  cases hsd : req.simul_data <;> rw [hsd] at h
  case KIRC =>
      cases h1 : sampleSeries pt.k_total_mean req.ngenes r with
      | error e => rw [h1] at h; exact Except.noConfusion h
      | ok p =>
          obtain ⟨⟨ps, vs⟩, r2⟩ := p
          rw [h1] at h
          cases h
          exact sampleSeries_ok_streams h1
  case Bottomly =>
      cases h1 : sampleSeries pt.b_total_mean req.ngenes r with
      | error e => rw [h1] at h; exact Except.noConfusion h
      | ok p =>
          obtain ⟨⟨ps, vs⟩, r2⟩ := p
          rw [h1] at h
          cases h
          exact sampleSeries_ok_streams h1
  case mKdB =>
      cases h1 : sampleSeries pt.k_total_mean req.ngenes r with
      | error e => rw [h1] at h; exact Except.noConfusion h
      | ok p =>
          obtain ⟨⟨ps, vs⟩, r2⟩ := p
          rw [h1] at h
          dsimp only [] at h
          cases h2 : sampleSeries pt.b_total_mean req.ngenes r2 with
          | error e => rw [h2] at h; exact Except.noConfusion h
          | ok q =>
              obtain ⟨⟨qs, ws⟩, r3⟩ := q
              rw [h2] at h
              cases h
              exact streamsEq_trans (sampleSeries_ok_streams h1)
                (sampleSeries_ok_streams h2)
  case mBdK =>
      cases h1 : sampleSeries pt.b_total_mean req.ngenes r with
      | error e => rw [h1] at h; exact Except.noConfusion h
      | ok p =>
          obtain ⟨⟨ps, vs⟩, r2⟩ := p
          rw [h1] at h
          dsimp only [] at h
          cases h2 : sampleSeries pt.k_total_mean req.ngenes r2 with
          | error e => rw [h2] at h; exact Except.noConfusion h
          | ok q =>
              obtain ⟨⟨qs, ws⟩, r3⟩ := q
              rw [h2] at h
              cases h
              exact streamsEq_trans (sampleSeries_ok_streams h1)
                (sampleSeries_ok_streams h2)

theorem injectDE_ok_streams {req : Request} {sm2 sub2 : List ℚ} {r : Rng}
    {out : (List ℚ × List ℚ × Option ℤ) × Rng}
    (h : injectDE req sm2 sub2 r = .ok out) : StreamsEq r out.2 := by
  unfold injectDE at h
  by_cases h0 : req.nde = 0
  · rw [if_pos h0] at h
    cases h
    exact ⟨rfl, rfl, rfl⟩
  · rw [if_neg h0] at h
    by_cases hff : req.fixedfold = true
    · rw [if_pos hff] at h
      by_cases hkirc : req.simul_data ≠ Simul.KIRC
      · rw [if_pos hkirc] at h
        exact Except.noConfusion h
      · rw [if_neg hkirc] at h
        cases h
        exact ⟨rfl, rfl, rfl⟩
    · rw [if_neg hff] at h
      dsimp only [] at h
      cases h1 : setOpAt sm2 (intRange 0 (pythonRound ((req.nde : ℚ) *
          req.frac_up)))
          ((r.expoList (intRange 0 (pythonRound ((req.nde : ℚ) *
            req.frac_up))).length).1.map (· + floorFor req.nsample))
          (· * ·) with
      | error e => rw [h1] at h; exact Except.noConfusion h
      | ok s1 =>
          rw [h1] at h
          dsimp only [] at h
          cases h2 : setOpAt s1 (intRange (pythonRound ((req.nde : ℚ) *
              req.frac_up)) req.nde)
              (((r.expoList (intRange 0 (pythonRound ((req.nde : ℚ) *
                req.frac_up))).length).2.expoList
                (intRange (pythonRound ((req.nde : ℚ) * req.frac_up))
                  req.nde).length).1.map (· + floorFor req.nsample))
              (· / ·) with
          | error e => rw [h2] at h; exact Except.noConfusion h
          | ok s2 =>
              rw [h2] at h
              dsimp only [] at h
              by_cases hhy : req.simul_data = Simul.mKdB ∨
                  req.simul_data = Simul.mBdK
              · rw [if_pos hhy] at h
                cases h3 : setOpAt sub2 (intRange 0 (pythonRound
                    ((req.nde : ℚ) * req.frac_up)))
                    ((r.expoList (intRange 0 (pythonRound ((req.nde : ℚ) *
                      req.frac_up))).length).1.map (· + floorFor req.nsample))
                    (· * ·) with
                | error e => rw [h3] at h; exact Except.noConfusion h
                | ok t1 =>
                    rw [h3] at h
                    dsimp only [] at h
                    cases h4 : setOpAt t1 (intRange (pythonRound
                        ((req.nde : ℚ) * req.frac_up)) req.nde)
                        (((r.expoList (intRange 0 (pythonRound ((req.nde : ℚ) *
                          req.frac_up))).length).2.expoList
                          (intRange (pythonRound ((req.nde : ℚ) *
                            req.frac_up)) req.nde).length).1.map
                          (· + floorFor req.nsample))
                        (· / ·) with
                    | error e => rw [h4] at h; exact Except.noConfusion h
                    | ok t2 =>
                        rw [h4] at h
                        cases h
                        exact ⟨rfl, rfl, rfl⟩
              · rw [if_neg hhy] at h
                cases h
                exact ⟨rfl, rfl, rfl⟩

theorem get_disp_ok_streams {mean : ℚ} {mc dc : List ℚ} {r : Rng}
    {out : ℚ × Rng} (h : get_disp mean mc dc r = .ok out) :
    StreamsEq r out.2 := by
  unfold get_disp at h
  dsimp only [] at h
  split at h
  · split at h
    · exact Except.noConfusion h
    · cases h
      exact ⟨rfl, rfl, rfl⟩
  · cases h
    exact ⟨rfl, rfl, rfl⟩

theorem applyGetDisp_ok_streams {mc dc : List ℚ} :
    ∀ {means : List ℚ} {r : Rng} {out : List ℚ × Rng},
      applyGetDisp means mc dc r = .ok out → StreamsEq r out.2 := by
  intro means
  induction means with
  | nil =>
      intro r out h
      simp only [applyGetDisp] at h
      cases h
      exact ⟨rfl, rfl, rfl⟩
  | cons m ms ih =>
      intro r out h
      simp only [applyGetDisp] at h
      cases h1 : get_disp m mc dc r with
      | error e => rw [h1] at h; exact Except.noConfusion h
      | ok p =>
          obtain ⟨v, r1⟩ := p
          rw [h1] at h
          dsimp only [] at h
          cases h2 : applyGetDisp ms mc dc r1 with
          | error e => rw [h2] at h; exact Except.noConfusion h
          | ok q =>
              obtain ⟨vs, r2⟩ := q
              rw [h2] at h
              cases h
              have hgd : StreamsEq r (v, r1).2 := get_disp_ok_streams h1
              have hih : StreamsEq r1 (vs, r2).2 := ih h2
              exact streamsEq_trans hgd hih

theorem dispStage_ok_streams {pt : ParamTables} {req : Request} {ms : Means}
    {sm2 sub2 : List ℚ} {r : Rng} {out : (List ℚ × List ℚ) × Rng}
    (h : dispStage pt req ms sm2 sub2 r = .ok out) : StreamsEq r out.2 := by
  unfold dispStage at h
  cases hdt : req.disp_type <;> rw [hdt] at h
  case same =>
      cases h
      exact ⟨rfl, rfl, rfl⟩
  case different =>
      cases hsd : req.simul_data <;> rw [hsd] at h
      case KIRC =>
          cases h1 : applyGetDisp ms.sm1 (refMean1 pt Simul.KIRC)
              (refDisp1 pt Simul.KIRC) r with
          | error e => rw [h1] at h; exact Except.noConfusion h
          | ok p =>
              obtain ⟨d1, r1⟩ := p
              rw [h1] at h
              dsimp only [] at h
              cases h2 : applyGetDisp ms.sm1 (refMean2 pt Simul.KIRC)
                  (refDisp2 pt Simul.KIRC) r1 with
              | error e => rw [h2] at h; exact Except.noConfusion h
              | ok q =>
                  obtain ⟨d2, r2⟩ := q
                  rw [h2] at h
                  cases h
                  exact streamsEq_trans (applyGetDisp_ok_streams h1)
                    (applyGetDisp_ok_streams h2)
      case Bottomly =>
          cases h1 : applyGetDisp ms.sm1 (refMean1 pt Simul.Bottomly)
              (refDisp1 pt Simul.Bottomly) r with
          | error e => rw [h1] at h; exact Except.noConfusion h
          | ok p =>
              obtain ⟨d1, r1⟩ := p
              rw [h1] at h
              dsimp only [] at h
              cases h2 : applyGetDisp ms.sm1 (refMean2 pt Simul.Bottomly)
                  (refDisp2 pt Simul.Bottomly) r1 with
              | error e => rw [h2] at h; exact Except.noConfusion h
              | ok q =>
                  obtain ⟨d2, r2⟩ := q
                  rw [h2] at h
                  cases h
                  exact streamsEq_trans (applyGetDisp_ok_streams h1)
                    (applyGetDisp_ok_streams h2)
      case mKdB =>
          cases h1 : applyGetDisp (sortedVals ms.subVals)
              (refMean1 pt Simul.mKdB) (refDisp1 pt Simul.mKdB) r with
          | error e => rw [h1] at h; exact Except.noConfusion h
          | ok p =>
              obtain ⟨d1, r1⟩ := p
              rw [h1] at h
              dsimp only [] at h
              cases h2 : applyGetDisp (sortedVals sub2)
                  (refMean2 pt Simul.mKdB) (refDisp2 pt Simul.mKdB) r1 with
              | error e => rw [h2] at h; exact Except.noConfusion h
              | ok q =>
                  obtain ⟨d2, r2⟩ := q
                  rw [h2] at h
                  cases h
                  exact streamsEq_trans (applyGetDisp_ok_streams h1)
                    (applyGetDisp_ok_streams h2)
      case mBdK =>
          cases h1 : applyGetDisp (sortedVals ms.subVals)
              (refMean1 pt Simul.mBdK) (refDisp1 pt Simul.mBdK) r with
          | error e => rw [h1] at h; exact Except.noConfusion h
          | ok p =>
              obtain ⟨d1, r1⟩ := p
              rw [h1] at h
              dsimp only [] at h
              cases h2 : applyGetDisp (sortedVals sub2)
                  (refMean2 pt Simul.mBdK) (refDisp2 pt Simul.mBdK) r1 with
              | error e => rw [h2] at h; exact Except.noConfusion h
              | ok q =>
                  obtain ⟨d2, r2⟩ := q
                  rw [h2] at h
                  cases h
                  exact streamsEq_trans (applyGetDisp_ok_streams h1)
                    (applyGetDisp_ok_streams h2)

/-! Equations for the generator pipeline. -/

theorem sim_error_means {pt : ParamTables} {req : Request} {r : Rng}
    {e : SimError} (h1 : meansStage pt req r = .error e) :
    synthetic_data_simulation pt req r = ⟨.error e, []⟩ := by
  unfold synthetic_data_simulation
  rw [h1]

theorem sim_error_inject {pt : ParamTables} {req : Request} {r : Rng}
    {ms : Means} {r1 : Rng} {e : SimError}
    (h1 : meansStage pt req r = .ok (ms, r1))
    (h2 : injectDE req ms.sm1 ms.subVals r1 = .error e) :
    synthetic_data_simulation pt req r = ⟨.error e, []⟩ := by
  unfold synthetic_data_simulation
  rw [h1]
  dsimp only []
  rw [h2]

theorem sim_error_disp {pt : ParamTables} {req : Request} {r : Rng}
    {ms : Means} {r1 : Rng} {sm2 sub2 : List ℚ} {u : Option ℤ} {r2 : Rng}
    {e : SimError} (h1 : meansStage pt req r = .ok (ms, r1))
    (h2 : injectDE req ms.sm1 ms.subVals r1 = .ok ((sm2, sub2, u), r2))
    (h3 : dispStage pt req ms sm2 sub2 r2 = .error e) :
    synthetic_data_simulation pt req r = ⟨.error e, []⟩ := by
  unfold synthetic_data_simulation
  rw [h1]
  dsimp only []
  rw [h2]
  dsimp only []
  rw [h3]

theorem sim_eq_stages {pt : ParamTables} {req : Request} {r : Rng}
    {ms : Means} {r1 : Rng} {sm2 sub2 : List ℚ} {u : Option ℤ} {r2 : Rng}
    {sd1 sd2 : List ℚ} {r3 : Rng}
    (h1 : meansStage pt req r = .ok (ms, r1))
    (h2 : injectDE req ms.sm1 ms.subVals r1 = .ok ((sm2, sub2, u), r2))
    (h3 : dispStage pt req ms sm2 sub2 r2 = .ok ((sd1, sd2), r3)) :
    synthetic_data_simulation pt req r =
      ⟨assemble req (samplingStage req ms.sm1 sm2 sd1 sd2 r3).1.1 u,
        (samplingStage req ms.sm1 sm2 sd1 sd2 r3).1.2⟩ := by
  unfold synthetic_data_simulation
  rw [h1]
  dsimp only []
  rw [h2]
  dsimp only []
  rw [h3]

theorem largePost_length (counts : List (List ℚ)) (g nsample one_third
    four_thirds : ℕ) (r : Rng) :
    (largePost counts g nsample one_third four_thirds r).1.length =
      counts.length := by
  simp [largePost, scaleSelected]

theorem randomOutlierPost_length (counts : List (List ℚ)) (g nsample : ℕ)
    (ro_prop : ℚ) (r : Rng) :
    (randomOutlierPost counts g nsample ro_prop r).1.length =
      counts.length := by
  simp [randomOutlierPost, scaleSelected]

theorem baseSampling_length (req : Request) (sm1 sm2 sd1 sd2 : List ℚ)
    (r : Rng) :
    (baseSampling req sm1 sm2 sd1 sd2 r).1.1.length = req.ngenes := by
  by_cases h1 : req.outlier_mode = Outlier.OS ∨ req.large_sample = true
  · by_cases h2 : req.large_sample = true
    · have heq : (baseSampling req sm1 sm2 sd1 sd2 r).1.1 =
          (largePost (geneLoop (fun a b c d => osRow a b c d req.nsample
              (pythonRound ((req.nsample : ℚ) / 3)).toNat)
            sm2 sd2 sm1 sd1 0 req.ngenes r).1.1 req.ngenes req.nsample
            (pythonRound ((req.nsample : ℚ) / 3)).toNat
            (req.nsample + (pythonRound ((req.nsample : ℚ) / 3)).toNat)
            (geneLoop (fun a b c d => osRow a b c d req.nsample
              (pythonRound ((req.nsample : ℚ) / 3)).toNat)
            sm2 sd2 sm1 sd1 0 req.ngenes r).2).1 := by
        simp only [baseSampling, if_pos h1, if_pos h2]
      rw [heq, largePost_length, geneLoop_length]
    · have heq : baseSampling req sm1 sm2 sd1 sd2 r =
          geneLoop (fun a b c d => osRow a b c d req.nsample
              (pythonRound ((req.nsample : ℚ) / 3)).toNat)
            sm2 sd2 sm1 sd1 0 req.ngenes r := by
        simp only [baseSampling, if_pos h1, if_neg h2]
      rw [heq, geneLoop_length]
  · by_cases h2 : req.outlier_mode = Outlier.DL
    · have heq : baseSampling req sm1 sm2 sd1 sd2 r =
          geneLoop (fun a b c d => dlRow a b c d req.nsample)
            sm2 sd2 sm1 sd1 0 req.ngenes r := by
        simp only [baseSampling, if_neg h1, if_pos h2]
      rw [heq, geneLoop_length]
    · by_cases h3 : req.random_sampling = true
      · have heq : baseSampling req sm1 sm2 sd1 sd2 r =
            geneLoop (fun a b c d => defRow a b c d
                (r.uniformList (7/10) (13/10) req.nsample).1
                ((r.advance req.nsample).uniformList (7/10) (13/10)
                  req.nsample).1)
              sm2 sd2 sm1 sd1 0 req.ngenes
              ((r.advance req.nsample).advance req.nsample) := by
          simp only [baseSampling, if_neg h1, if_neg h2, if_pos h3,
            Rng.uniformList]
        rw [heq, geneLoop_length]
      · have heq : baseSampling req sm1 sm2 sd1 sd2 r =
            geneLoop (fun a b c d => defRow a b c d
                (List.replicate req.nsample 1)
                (List.replicate req.nsample 1))
              sm2 sd2 sm1 sd1 0 req.ngenes r := by
          simp only [baseSampling, if_neg h1, if_neg h2, if_neg h3]
        rw [heq, geneLoop_length]

theorem samplingStage_length (req : Request) (sm1 sm2 sd1 sd2 : List ℚ)
    (r : Rng) :
    (samplingStage req sm1 sm2 sd1 sd2 r).1.1.length = req.ngenes := by
  unfold samplingStage
  by_cases hR : req.outlier_mode = Outlier.R
  · rw [if_pos hR]
    dsimp only []
    rw [randomOutlierPost_length, baseSampling_length]
  · rw [if_neg hR]
    exact baseSampling_length _ _ _ _ _ _

theorem sim_ok_inversion {pt : ParamTables} {req : Request} {r : Rng}
    {t : GeneTable}
    (h : (synthetic_data_simulation pt req r).outcome = .ok t) :
    ∃ ms r1 sm2 sub2 u r2 sd1 sd2 r3,
      meansStage pt req r = .ok (ms, r1) ∧
      injectDE req ms.sm1 ms.subVals r1 = .ok ((sm2, sub2, u), r2) ∧
      dispStage pt req ms sm2 sub2 r2 = .ok ((sd1, sd2), r3) ∧
      assemble req (samplingStage req ms.sm1 sm2 sd1 sd2 r3).1.1 u = .ok t ∧
      StreamsEq r r3 := by
  cases h1 : meansStage pt req r with
  | error e => rw [sim_error_means h1] at h; exact Except.noConfusion h
  | ok p =>
      obtain ⟨ms, r1⟩ := p
      cases h2 : injectDE req ms.sm1 ms.subVals r1 with
      | error e => rw [sim_error_inject h1 h2] at h; exact Except.noConfusion h
      | ok q =>
          obtain ⟨⟨sm2, sub2, u⟩, r2⟩ := q
          cases h3 : dispStage pt req ms sm2 sub2 r2 with
          | error e =>
              rw [sim_error_disp h1 h2 h3] at h
              exact Except.noConfusion h
          | ok w =>
              obtain ⟨⟨sd1, sd2⟩, r3⟩ := w
              rw [sim_eq_stages h1 h2 h3] at h
              refine ⟨ms, r1, sm2, sub2, u, r2, sd1, sd2, r3, rfl, h2, h3, h,
                ?_⟩
              have hA : StreamsEq r r1 := meansStage_ok_streams h1
              have hB : StreamsEq r1 ((sm2, sub2, u), r2).2 :=
                injectDE_ok_streams h2
              have hC : StreamsEq r2 ((sd1, sd2), r3).2 :=
                dispStage_ok_streams h3
              exact streamsEq_trans hA (streamsEq_trans hB hC)

theorem sim_trace_cases (pt : ParamTables) (req : Request) (r : Rng) :
    (synthetic_data_simulation pt req r).trace = [] ∨
    ∃ sm1 sm2 sd1 sd2 r3, (synthetic_data_simulation pt req r).trace =
      (baseSampling req sm1 sm2 sd1 sd2 r3).1.2 := by
  cases h1 : meansStage pt req r with
  | error e => left; rw [sim_error_means h1]
  | ok p =>
      obtain ⟨ms, r1⟩ := p
      cases h2 : injectDE req ms.sm1 ms.subVals r1 with
      | error e => left; rw [sim_error_inject h1 h2]
      | ok q =>
          obtain ⟨⟨sm2, sub2, u⟩, r2⟩ := q
          cases h3 : dispStage pt req ms sm2 sub2 r2 with
          | error e => left; rw [sim_error_disp h1 h2 h3]
          | ok w =>
              obtain ⟨⟨sd1, sd2⟩, r3⟩ := w
              right
              refine ⟨ms.sm1, sm2, sd1, sd2, r3, ?_⟩
              rw [sim_eq_stages h1 h2 h3]
              exact samplingStage_trace _ _ _ _ _ _

theorem intRange_length (a b : ℤ) :
    (intRange a b).length = (b - a).toNat := by
  simp [intRange]

theorem getD_map_at {f : ℚ → ℚ} {xs : List ℚ} {i : ℕ} (h : i < xs.length) :
    (xs.map f).getD i 0 = f (xs.getD i 0) := by
  rw [List.getD_eq_getElem?_getD, List.getElem?_map,
    List.getElem?_eq_getElem h, List.getD_eq_getElem?_getD,
    List.getElem?_eq_getElem h]
  rfl

theorem expoFactors_getD (r : Rng) (fl : ℚ) (n p : ℕ) (hp : p < n) :
    ((r.expoList n).1.map (· + fl)).getD p 0 = r.expo (r.k + p) + fl := by
  have h1 : p < (r.expoList n).1.length := by
    simp [Rng.expoList]
    exact hp
  rw [getD_map_at h1]
  simp [Rng.expoList, List.getD_eq_getElem?_getD, List.getElem?_map,
    List.getElem?_range, hp]

theorem expoFactors_length (r : Rng) (fl : ℚ) (n : ℕ) :
    ((r.expoList n).1.map (· + fl)).length = n := by
  simp [Rng.expoList]

/-! The claims. -/

/-- C1: for every Simulation Request (all generator parameters, the seed
included) and fixed loaded parameter tables, two independent runs of
synthetic_data_simulation produce identical output: the same outcome
table (same counts, labels, row and column order) and the same sampling
trace.  The generator is created inside the call from the request's
seed, so the run is a function of (tables, request) alone. -/
theorem c1_determinism (pt : ParamTables) (req1 req2 : Request)
    (out1 out2 : SimResult) (hreq : req1 = req2)
    (h1 : runSimulation pt req1 = out1) (h2 : runSimulation pt req2 = out2) :
    out1 = out2 := by
  subst hreq
  subst h1
  subst h2
  rfl

/-- C9: the default name of the numeric score column read from a
DE-method output file by the Metrics Engine input path is "padj": the
core pipeline always passes CONDITION.analysis.de_score, whose default
value in condition.py is "padj" (load_metrics_input's own parameter
default "fdr" is thereby always overridden on this path). -/
theorem c9_default_score_colname :
    metricsEngineScoreColname defaultAnalysisConfig = "padj" := rfl

/-- C10: for every Simulation Request with nde = 0 the run raises an
error instead of returning an all-"ns" table; on the happy path (sample
draws within table bounds, same-dispersion mode) the error is precisely
the NameError from reading the never-assigned num_updeg at assembly. -/
theorem c10_nde_zero_raises (pt : ParamTables) (req : Request) (r : Rng)
    (h0 : req.nde = 0) :
    (∃ e, (synthetic_data_simulation pt req r).outcome = .error e) ∧
      (req.disp_type = Disp.same →
        req.ngenes ≤ pt.k_total_mean.length →
        req.ngenes ≤ pt.b_total_mean.length →
        (synthetic_data_simulation pt req r).outcome =
          .error SimError.nameError) := by
  constructor
  · cases h1 : meansStage pt req r with
    | error e => exact ⟨e, by rw [sim_error_means h1]⟩
    | ok p =>
        obtain ⟨ms, r1⟩ := p
        have h2 := injectDE_zero ms.sm1 ms.subVals r1 h0
        cases h3 : dispStage pt req ms ms.sm1 ms.subVals r1 with
        | error e => exact ⟨e, by rw [sim_error_disp h1 h2 h3]⟩
        | ok w =>
            obtain ⟨⟨sd1, sd2⟩, r3⟩ := w
            refine ⟨SimError.nameError, ?_⟩
            rw [sim_eq_stages h1 h2 h3]
            dsimp only []
            exact assemble_none _ _
  · intro hsame hk hb
    obtain ⟨ms, r1, h1⟩ := meansStage_ok_exists r hk hb
    have h2 := injectDE_zero ms.sm1 ms.subVals r1 h0
    obtain ⟨d1, h3⟩ := dispStage_same_ok pt req ms ms.sm1 ms.subVals r1 hsame
    rw [sim_eq_stages h1 h2 h3]
    dsimp only []
    exact assemble_none _ _

/-- C6 (amended): a Simulation Request with nde > ngenes is not rejected
by an up-front invalid-argument validation, but the run always fails
with some error: in default mode an index error during DE injection
(before any sampling), in fixed-fold mode a wrong-dataset error or a
length-mismatch error at assembly (after count sampling). -/
theorem c6_nde_exceeds_ngenes_errors (pt : ParamTables) (req : Request)
    (r : Rng) (h : req.ngenes < req.nde) :
    ∃ e, (synthetic_data_simulation pt req r).outcome = .error e := by
  cases h1 : meansStage pt req r with
  | error e => exact ⟨e, by rw [sim_error_means h1]⟩
  | ok p =>
      obtain ⟨ms, r1⟩ := p
      have hms := meansStage_ok_spec h1
      by_cases hff : req.fixedfold = true
      · cases h2 : injectDE req ms.sm1 ms.subVals r1 with
        | error e => exact ⟨e, by rw [sim_error_inject h1 h2]⟩
        | ok q =>
            obtain ⟨⟨sm2, sub2, u⟩, r2⟩ := q
            have hinj := injectDE_ok_spec h2
            have hnde : req.nde ≠ 0 := by omega
            have hu : u = some (pythonRound (2 * (req.nde : ℚ) / 3)) := by
              have := hinj.2
              rw [if_neg hnde, if_pos hff] at this
              exact this
            cases h3 : dispStage pt req ms sm2 sub2 r2 with
            | error e => exact ⟨e, by rw [sim_error_disp h1 h2 h3]⟩
            | ok w =>
                obtain ⟨⟨sd1, sd2⟩, r3⟩ := w
                refine ⟨SimError.lengthMismatch, ?_⟩
                rw [sim_eq_stages h1 h2 h3, hu]
                dsimp only []
                apply assemble_mismatch
                have hz0 : 0 ≤ pythonRound (2 * (req.nde : ℚ) / 3) :=
                  pythonRound_nonneg (by positivity)
                have hzn := pythonRound_two_thirds_le req.nde
                rw [samplingStage_length]
                omega
      · have hgt : ms.sm1.length < req.nde := by
          rw [hms.1]
          exact h
        obtain ⟨e, he⟩ := injectDE_error_of_gt ms.sm1 ms.subVals r1
          (by simpa using hff) hgt
        exact ⟨e, by rw [sim_error_inject h1 he]⟩

/-- C5 (amended): with outlier mode DL and the large-sample flag unset,
every count-sampling call of the run is a lowered-dispersion call at the
assigned dispersion divided by 22.5, and the 5x-dispersion
outlier-sample branch is never invoked; conversely with outlier mode OS
no sampling call uses a lowered dispersion.  (With the large-sample flag
set, DL mode is preempted by the outlier-sample branch; see the
counterexample.) -/
theorem c5_outlier_mode_exclusivity (pt : ParamTables) (req : Request)
    (r : Rng) :
    (req.outlier_mode = Outlier.DL → req.large_sample = false →
      ∀ call ∈ (synthetic_data_simulation pt req r).trace,
        call.kind = DispKind.lowered ∧
          call.usedDisp = call.baseDisp / (45/2)) ∧
    (req.outlier_mode = Outlier.OS →
      ∀ call ∈ (synthetic_data_simulation pt req r).trace,
        call.kind ≠ DispKind.lowered) := by
  rcases sim_trace_cases pt req r with hemp | ⟨sm1, sm2, sd1, sd2, r3, htr⟩
  · rw [hemp]
    constructor
    · intro _ _ call hc
      cases hc
    · intro _ call hc
      cases hc
  · rw [htr]
    exact ⟨fun hdl hls => baseSampling_trace_dl req sm1 sm2 sd1 sd2 r3 hdl hls,
      fun hos => baseSampling_trace_os req sm1 sm2 sd1 sd2 r3 hos⟩

/-- C2: whenever synthetic_data_simulation returns a table, the table has
exactly ngenes rows, 2 + 2*nsample columns (Gene_Symbol, Description,
then the 2*nsample sample columns; Gene_ID is the index), and every
count cell is a nonnegative integer. -/
theorem c2_shape_invariants (pt : ParamTables) (req : Request) (r : Rng)
    (t : GeneTable) (hwf : r.Wf)
    (h : (synthetic_data_simulation pt req r).outcome = .ok t) :
    t.nrows = req.ngenes ∧
      t.descriptions.length = req.ngenes ∧
      t.ncols = 2 + 2 * req.nsample ∧
      (∀ row ∈ t.counts, row.length = 2 * req.nsample) ∧
      (∀ row ∈ t.counts, ∀ c ∈ row, 0 ≤ c) := by
  obtain ⟨ms, r1, sm2, sub2, u, r2, sd1, sd2, r3, h1, h2, h3, h4, hstr⟩ :=
    sim_ok_inversion h
  cases u with
  | none => rw [assemble_none] at h4; exact Except.noConfusion h4
  | some z =>
      have hsamp := samplingStage_spec req ms.sm1 sm2 sd1 sd2
        (r := r3) (hstr.wf hwf)
      obtain ⟨hlenc, hrows, hnn⟩ := hsamp
      have has := assemble_ok_spec h4
      refine ⟨?_, ?_, ?_, ?_, ?_⟩
      · unfold GeneTable.nrows
        rw [has.2.1, hlenc]
      · rw [has.2.2.1, hlenc]
      · unfold GeneTable.ncols
        rw [has.2.2.2.1]
      · intro row hrow
        rw [has.2.2.2.2.1] at hrow
        rw [List.mem_map] at hrow
        obtain ⟨row0, hmem, rfl⟩ := hrow
        rw [List.length_map]
        exact hrows row0 hmem
      · intro row hrow
        rw [has.2.2.2.2.1] at hrow
        rw [List.mem_map] at hrow
        obtain ⟨row0, hmem, rfl⟩ := hrow
        intro c hc
        rw [List.mem_map] at hc
        obtain ⟨c0, hc0, rfl⟩ := hc
        exact truncToInt_nonneg (hnn row0 hmem c0 hc0)

/-- C3 (amended): in default (non-fixed-fold) mode, whenever
synthetic_data_simulation returns a table, its Description column holds
exactly round(nde*frac_up) rows labeled "up", nde minus that value
labeled "dn", and ngenes - nde labeled "ns".  (In fixed-fold mode the
up-count is round(2*nde/3) instead, independent of frac_up; see the
counterexample.) -/
theorem c3_de_split_invariant (pt : ParamTables) (req : Request) (r : Rng)
    (t : GeneTable) (hff : req.fixedfold = false)
    (h : (synthetic_data_simulation pt req r).outcome = .ok t) :
    (t.descriptions.count "up" : ℤ) =
        pythonRound ((req.nde : ℚ) * req.frac_up) ∧
      (t.descriptions.count "dn" : ℤ) =
        (req.nde : ℤ) - pythonRound ((req.nde : ℚ) * req.frac_up) ∧
      t.descriptions.count "ns" = req.ngenes - req.nde := by
  obtain ⟨ms, r1, sm2, sub2, u, r2, sd1, sd2, r3, h1, h2, h3, h4, hstr⟩ :=
    sim_ok_inversion h
  cases u with
  | none => rw [assemble_none] at h4; exact Except.noConfusion h4
  | some z =>
      have hinj := injectDE_ok_spec h2
      have hnde : req.nde ≠ 0 := by
        intro h0
        have := hinj.2
        rw [if_pos h0] at this
        exact Option.noConfusion this
      have hz : z = pythonRound ((req.nde : ℚ) * req.frac_up) := by
        have := hinj.2
        rw [if_neg hnde, if_neg (by simp [hff])] at this
        exact Option.some.inj this
      have has := assemble_ok_spec h4
      have hlenc := samplingStage_length req ms.sm1 sm2 sd1 sd2 r3
      have hbal := has.1
      rw [hlenc] at hbal
      have hup := has.2.2.2.2.2.1
      have hdn := has.2.2.2.2.2.2.1
      have hns := has.2.2.2.2.2.2.2
      rw [hlenc] at hns
      subst hz
      refine ⟨?_, ?_, ?_⟩
      · rw [hup]
        omega
      · rw [hdn]
        omega
      · rw [hns]
        omega

/-- C4: in default (non-fixed-fold) mode with nde > 0, DE injection
perturbs exactly the first nde entries of the condition-2 mean vector:
entries [0, up_count) with up_count = round(nde*frac_up) are multiplied
by an Exponential(1) draw plus the sample-size-dependent floor (1.5 when
nsample ≤ 3, 1.3 when nsample ≤ 5, 1.2 otherwise, as floorFor states),
entries [up_count, nde) are divided by an analogously built factor, and
every other entry is unchanged. -/
theorem c4_default_de_injection (req : Request) (sm2 sub2 : List ℚ)
    (r : Rng) (hff : req.fixedfold = false) (hnde : req.nde ≠ 0)
    (hf0 : 0 ≤ req.frac_up) (hf1 : req.frac_up ≤ 1)
    (hlen : req.nde ≤ sm2.length) (hsub : req.nde ≤ sub2.length) :
    ∃ s2 sub2x r2,
      injectDE req sm2 sub2 r =
        .ok ((s2, sub2x, some (pythonRound ((req.nde : ℚ) * req.frac_up))),
          r2) ∧
      s2.length = sm2.length ∧
      (∀ i, i < (pythonRound ((req.nde : ℚ) * req.frac_up)).toNat →
        s2.getD i 0 =
          sm2.getD i 0 * (r.expo (r.k + i) + floorFor req.nsample)) ∧
      (∀ i, (pythonRound ((req.nde : ℚ) * req.frac_up)).toNat ≤ i →
        i < req.nde →
        s2.getD i 0 =
          sm2.getD i 0 / (r.expo (r.k + i) + floorFor req.nsample)) ∧
      (∀ i, req.nde ≤ i → i < sm2.length → s2.getD i 0 = sm2.getD i 0) := by
  have hffp : ¬(req.fixedfold = true) := by simp [hff]
  set Z := pythonRound ((req.nde : ℚ) * req.frac_up) with hZ
  have hz0 : 0 ≤ Z :=
    pythonRound_nonneg (mul_nonneg (Nat.cast_nonneg _) hf0)
  have hzn : Z ≤ (req.nde : ℤ) :=
    pythonRound_le_of_le_int
      (by push_cast; nlinarith [Nat.cast_nonneg (α := ℚ) req.nde])
  set a := Z.toNat with ha
  have haz : (a : ℤ) = Z := Int.toNat_of_nonneg hz0
  have han : a ≤ req.nde := by omega
  have hazlen : (intRange 0 Z).length = a := by
    rw [intRange_length]
    omega
  have hdnlen : (intRange Z (req.nde : ℤ)).length = req.nde - a := by
    rw [intRange_length]
    omega
  have hf1len : ((r.expoList (intRange 0 Z).length).1.map
      (· + floorFor req.nsample)).length = a := by
    rw [expoFactors_length, hazlen]
  have hf2len : (((r.expoList (intRange 0 Z).length).2.expoList
      (intRange Z (req.nde : ℤ)).length).1.map
      (· + floorFor req.nsample)).length = req.nde - a := by
    rw [expoFactors_length, hdnlen]
  obtain ⟨s1, hok1, hlen1, hchar1⟩ := setOpAt_range (· * ·) a 0 sm2
    ((r.expoList (intRange 0 Z).length).1.map (· + floorFor req.nsample))
    hf1len (by omega)
  have hup : intRange ((0 : ℕ) : ℤ) (((0 : ℕ) : ℤ) + ((a : ℕ) : ℤ)) =
      intRange 0 Z := by
    congr 1
    all_goals omega
  rw [hup] at hok1
  obtain ⟨s2v, hok2, hlen2, hchar2⟩ := setOpAt_range (· / ·) (req.nde - a)
    a s1
    (((r.expoList (intRange 0 Z).length).2.expoList
      (intRange Z (req.nde : ℤ)).length).1.map (· + floorFor req.nsample))
    hf2len (by omega)
  have hdn : intRange ((a : ℕ) : ℤ)
      (((a : ℕ) : ℤ) + ((req.nde - a : ℕ) : ℤ)) =
      intRange Z (req.nde : ℤ) := by
    congr 1
    all_goals omega
  rw [hdn] at hok2
  have hf1get : ∀ i, i < a →
      ((r.expoList (intRange 0 Z).length).1.map
        (· + floorFor req.nsample)).getD i 0 =
        r.expo (r.k + i) + floorFor req.nsample := by
    intro i hi
    exact expoFactors_getD r (floorFor req.nsample) _ i (by omega)
  have hf2get : ∀ i, a ≤ i → i < req.nde →
      (((r.expoList (intRange 0 Z).length).2.expoList
        (intRange Z (req.nde : ℤ)).length).1.map
        (· + floorFor req.nsample)).getD (i - a) 0 =
        r.expo (r.k + i) + floorFor req.nsample := by
    intro i hi1 hi2
    have hstep : (((r.expoList (intRange 0 Z).length).2.expoList
        (intRange Z (req.nde : ℤ)).length).1.map
        (· + floorFor req.nsample)).getD (i - a) 0 =
        (r.expoList (intRange 0 Z).length).2.expo
          ((r.expoList (intRange 0 Z).length).2.k + (i - a)) +
          floorFor req.nsample :=
      expoFactors_getD ((r.expoList (intRange 0 Z).length).2)
        (floorFor req.nsample) ((intRange Z (req.nde : ℤ)).length) (i - a)
        (by rw [hdnlen]; omega)
    rw [hstep]
    have hk : (r.expoList (intRange 0 Z).length).2.k = r.k + a := by
      simp [Rng.expoList, Rng.advance, hazlen]
    have hex : (r.expoList (intRange 0 Z).length).2.expo = r.expo := rfl
    rw [hk, hex]
    have harg : r.k + a + (i - a) = r.k + i := by omega
    rw [harg]
  have hs1tail : ∀ i, a ≤ i → i < sm2.length → s1.getD i 0 = sm2.getD i 0 := by
    intro i hi1 hi2
    have := hchar1 i hi2
    rw [if_neg (by omega)] at this
    exact this
  refine ⟨s2v, ?_, ?_, ?_, hlen2.trans hlen1, ?_, ?_, ?_⟩
  · exact if req.simul_data = Simul.mKdB ∨ req.simul_data = Simul.mBdK then
      (match setOpAt sub2 (intRange 0 Z)
          ((r.expoList (intRange 0 Z).length).1.map
            (· + floorFor req.nsample)) (· * ·) with
        | .error _ => sub2
        | .ok t1 =>
            match setOpAt t1 (intRange Z (req.nde : ℤ))
                (((r.expoList (intRange 0 Z).length).2.expoList
                  (intRange Z (req.nde : ℤ)).length).1.map
                  (· + floorFor req.nsample)) (· / ·) with
            | .error _ => t1
            | .ok t2 => t2)
      else sub2
  · exact ((r.expoList (intRange 0 Z).length).2.expoList
      (intRange Z (req.nde : ℤ)).length).2
  · unfold injectDE
    rw [if_neg hnde, if_neg hffp]
    dsimp only []
    rw [← hZ, hok1]
    dsimp only []
    rw [hok2]
    dsimp only []
    by_cases hhy : req.simul_data = Simul.mKdB ∨ req.simul_data = Simul.mBdK
    · rw [if_pos hhy, if_pos hhy]
      obtain ⟨t1, hok3, hlen3, -⟩ := setOpAt_range (· * ·) a 0 sub2
        ((r.expoList (intRange 0 Z).length).1.map
          (· + floorFor req.nsample)) hf1len (by omega)
      rw [hup] at hok3
      obtain ⟨t2, hok4, -, -⟩ := setOpAt_range (· / ·) (req.nde - a) a t1
        (((r.expoList (intRange 0 Z).length).2.expoList
          (intRange Z (req.nde : ℤ)).length).1.map
          (· + floorFor req.nsample)) hf2len (by omega)
      rw [hdn] at hok4
      rw [hok3]
      dsimp only []
      rw [hok4]
    · rw [if_neg hhy, if_neg hhy]
  · intro i hi
    have hia : i < a := hi
    have e1 := hchar2 i (by omega)
    rw [if_neg (by omega)] at e1
    have e2 := hchar1 i (by omega)
    rw [if_pos (by omega)] at e2
    rw [e1, e2, Nat.sub_zero, hf1get i hia]
  · intro i hi1 hi2
    have e1 := hchar2 i (by omega)
    rw [if_pos (by omega)] at e1
    rw [e1, hs1tail i (by omega) (by omega), hf2get i (by omega) hi2]
  · intro i hi1 hi2
    have e1 := hchar2 i (by omega)
    rw [if_neg (by omega)] at e1
    rw [e1]
    exact hs1tail i (by omega) hi2

/-- C7: for every target mean and every non-empty paired (mean,
dispersion) pool in which no pool mean lies strictly within ±20 of the
target, get_disp returns without raising and without consuming the
random stream the dispersion at the position of the pool mean closest in
absolute distance to the target, ties broken by first occurrence. -/
theorem c7_get_disp_fallback (mean : ℚ) (mc dc : List ℚ) (r : Rng)
    (hne : mc ≠ []) (_hlen : dc.length = mc.length)
    (hwin : ∀ m ∈ mc, ¬(mean - 20 < m ∧ m < mean + 20)) :
    ∃ j, j < mc.length ∧
      get_disp mean mc dc r = .ok (dc.getD j 0, r) ∧
      (∀ i, i < mc.length →
        |mc.getD j 0 - mean| ≤ |mc.getD i 0 - mean|) ∧
      (∀ i, i < j → |mc.getD j 0 - mean| < |mc.getD i 0 - mean|) := by
  have hpool : (List.zip mc dc).filterMap
      (fun md => if mean - 20 < md.1 ∧ md.1 < mean + 20 then some md.2
        else none) = [] := by
    rw [List.filterMap_eq_nil_iff]
    intro md hmd
    obtain ⟨x, y⟩ := md
    rw [if_neg (hwin x (List.of_mem_zip hmd).1)]
  have hlne : mc.map (fun m => |m - mean|) ≠ [] := by
    simp [hne]
  obtain ⟨hjlt, hmin, hfirst⟩ :=
    listArgmin_spec (mc.map fun m => |m - mean|) hlne
  rw [List.length_map] at hjlt
  refine ⟨listArgmin (mc.map fun m => |m - mean|), hjlt, ?_, ?_, ?_⟩
  · unfold get_disp
    dsimp only []
    rw [hpool]
    rw [if_pos List.length_nil, if_neg (by simpa using hne)]
  · intro i hi
    have h1 := hmin i (by rwa [List.length_map])
    rwa [getD_map_at hjlt, getD_map_at hi] at h1
  · intro i hi
    have h1 := hfirst i hi
    rwa [getD_map_at hjlt, getD_map_at (by omega : i < mc.length)] at h1

/-- C8: the Metrics Input loader stores the transformed score 1 - s for
every raw score s, and a predicted label that is true exactly when
1 - s > 1 - t, i.e. exactly when s < t, for the configured threshold
t. -/
theorem c8_score_inversion (rows : List (String × ℚ)) (t : ℚ) (i : ℕ)
    (hi : i < rows.length) :
    (load_metrics_input rows t).y_score.getD i 0 =
        1 - (rows.getD i ("", 0)).2 ∧
      ((load_metrics_input rows t).y_pred.getD i false = true ↔
        1 - (rows.getD i ("", 0)).2 > 1 - t) ∧
      (1 - (rows.getD i ("", 0)).2 > 1 - t ↔ (rows.getD i ("", 0)).2 < t) := by
  refine ⟨?_, ?_, ?_⟩
  · show ((rows.map fun p => 1 - p.2).getD i 0) = 1 - (rows.getD i ("", 0)).2
    rw [List.getD_eq_getElem?_getD, List.getElem?_map,
      List.getElem?_eq_getElem hi, List.getD_eq_getElem?_getD,
      List.getElem?_eq_getElem hi]
    rfl
  · show (((rows.map fun p => 1 - p.2).map
        fun s => decide (s > 1 - t)).getD i false = true) ↔ _
    rw [List.getD_eq_getElem?_getD, List.getElem?_map, List.getElem?_map,
      List.getElem?_eq_getElem hi, List.getD_eq_getElem?_getD,
      List.getElem?_eq_getElem hi]
    simp
  · constructor <;> intro h <;> linarith

/-! Witnesses and counterexamples at the concrete fixtures.  Batteries
marks the rational-arithmetic primitives irreducible, which blocks
kernel evaluation; the local attribute below restores reducibility for
these closed computations only (attributes do not change what the kernel
accepts). -/

theorem numpyDefaultRng_wf (seed : ℕ) : (numpyDefaultRng seed).Wf := by
  intro i
  refine ⟨?_, ?_, ?_⟩
  · show (0 : ℚ) ≤ (((seed + 5 * i) % 97 : ℕ) : ℚ) / 10
    positivity
  · show (0 : ℚ) ≤ (((seed + 7 * i) % 100 : ℕ) : ℚ) / 100
    positivity
  · show (((seed + 7 * i) % 100 : ℕ) : ℚ) / 100 < 1
    rw [div_lt_one (by norm_num)]
    exact_mod_cast Nat.mod_lt _ (by norm_num)

section

set_option allowUnsafeReducibility true
attribute [local semireducible] Rat.mul Rat.add Rat.sub Rat.inv

/-- Witness for C1: the two runs coincide at the concrete fixture. -/
theorem c1_determinism_witness :
    runSimulation pt0 req0 = runSimulation pt0 req0 :=
  c1_determinism pt0 req0 req0 (runSimulation pt0 req0)
    (runSimulation pt0 req0) rfl rfl rfl

/-- Witness for C2 at the concrete fixture run. -/
theorem c2_shape_invariants_witness :
    t0.nrows = req0.ngenes ∧
      t0.descriptions.length = req0.ngenes ∧
      t0.ncols = 2 + 2 * req0.nsample ∧
      (∀ row ∈ t0.counts, row.length = 2 * req0.nsample) ∧
      (∀ row ∈ t0.counts, ∀ c ∈ row, 0 ≤ c) :=
  c2_shape_invariants pt0 req0 (numpyDefaultRng 42) t0 (numpyDefaultRng_wf 42)
    (by decide)

/-- Witness for C3 at the concrete default-mode fixture run. -/
theorem c3_de_split_invariant_witness :
    (t0.descriptions.count "up" : ℤ) =
        pythonRound ((req0.nde : ℚ) * req0.frac_up) ∧
      (t0.descriptions.count "dn" : ℤ) =
        (req0.nde : ℤ) - pythonRound ((req0.nde : ℚ) * req0.frac_up) ∧
      t0.descriptions.count "ns" = req0.ngenes - req0.nde :=
  c3_de_split_invariant pt0 req0 (numpyDefaultRng 42) t0 rfl (by decide)

/-- Counterexample to the unamended C3: in fixed-fold mode the up-count
follows round(2*nde/3) and ignores frac_up.  With nde = 3 and
frac_up = 0.9 the run returns a table with 2 "up" rows while
round(nde*frac_up) = 3. -/
theorem c3_de_split_counterexample :
    (runSimulation pt0 reqC3).outcome = .ok tC3 ∧
      ¬((tC3.descriptions.count "up" : ℤ) =
        pythonRound ((reqC3.nde : ℚ) * reqC3.frac_up)) := by decide

/-- Witness for C4 at a concrete DE-injection call. -/
theorem c4_default_de_injection_witness :
    ∃ s2 sub2x r2,
      injectDE req0 sm2w sub2w rng0 =
        .ok ((s2, sub2x, some (pythonRound ((req0.nde : ℚ) * req0.frac_up))),
          r2) ∧
      s2.length = sm2w.length ∧
      (∀ i, i < (pythonRound ((req0.nde : ℚ) * req0.frac_up)).toNat →
        s2.getD i 0 =
          sm2w.getD i 0 * (rng0.expo (rng0.k + i) + floorFor req0.nsample)) ∧
      (∀ i, (pythonRound ((req0.nde : ℚ) * req0.frac_up)).toNat ≤ i →
        i < req0.nde →
        s2.getD i 0 =
          sm2w.getD i 0 / (rng0.expo (rng0.k + i) + floorFor req0.nsample)) ∧
      (∀ i, req0.nde ≤ i → i < sm2w.length → s2.getD i 0 = sm2w.getD i 0) :=
  c4_default_de_injection req0 sm2w sub2w rng0 rfl (by decide) (by decide)
    (by decide) (by decide) (by decide)

/-- Counterexample to the unamended C5: a dispersion-lowered request with
the large-sample flag set is preempted by the outlier-sample branch, so
its run does sample at 5x dispersion. -/
theorem c5_outlier_mode_counterexample :
    reqDL.outlier_mode = Outlier.DL ∧
      ((runSimulation pt0 reqDL).trace.any
        (fun c => c.kind == DispKind.fiveTimes && c.size != 0)) = true :=
  ⟨rfl, by decide⟩

/-- Witness for C6 at the concrete default-mode fixture with
nde > ngenes. -/
theorem c6_nde_exceeds_ngenes_errors_witness :
    ∃ e, (synthetic_data_simulation pt0 reqI (numpyDefaultRng 42)).outcome =
      .error e :=
  c6_nde_exceeds_ngenes_errors pt0 reqI (numpyDefaultRng 42) (by decide)

/-- Counterexample to the unamended C6: the fixed-fold run with
nde > ngenes fails only at assembly, after eight sampling calls, and a
request with nsample = 0 does not fail at all. -/
theorem c6_no_upfront_validation_counterexample :
    (runSimulation pt0 reqF).outcome = .error SimError.lengthMismatch ∧
      (runSimulation pt0 reqF).trace.length = 8 ∧
      (runSimulation pt0 reqN0).outcome = .ok tN0 := by decide

/-- Witness for C7: the pool mcW has no mean within ±20 of the target
1000, and get_disp falls back to the closest mean's dispersion. -/
theorem c7_get_disp_fallback_witness :
    ∃ j, j < mcW.length ∧
      get_disp 1000 mcW dcW rng0 = .ok (dcW.getD j 0, rng0) ∧
      (∀ i, i < mcW.length →
        |mcW.getD j 0 - 1000| ≤ |mcW.getD i 0 - 1000|) ∧
      (∀ i, i < j → |mcW.getD j 0 - 1000| < |mcW.getD i 0 - 1000|) :=
  c7_get_disp_fallback 1000 mcW dcW rng0 (by decide) (by decide) (by decide)

/-- Witness for C8: one up-regulated row with raw score 0.01 at threshold
0.1. -/
theorem c8_score_inversion_witness :
    (load_metrics_input rowsW (1/10)).y_score.getD 0 0 =
        1 - (rowsW.getD 0 ("", 0)).2 ∧
      ((load_metrics_input rowsW (1/10)).y_pred.getD 0 false = true ↔
        1 - (rowsW.getD 0 ("", 0)).2 > 1 - 1/10) ∧
      (1 - (rowsW.getD 0 ("", 0)).2 > 1 - 1/10 ↔
        (rowsW.getD 0 ("", 0)).2 < 1/10) :=
  c8_score_inversion rowsW (1/10) 0 (by decide)

/-- Witness for C10 at the concrete fixture with nde = 0. -/
theorem c10_nde_zero_raises_witness :
    (∃ e, (synthetic_data_simulation pt0 reqZ (numpyDefaultRng 42)).outcome =
        .error e) ∧
      (reqZ.disp_type = Disp.same →
        reqZ.ngenes ≤ pt0.k_total_mean.length →
        reqZ.ngenes ≤ pt0.b_total_mean.length →
        (synthetic_data_simulation pt0 reqZ (numpyDefaultRng 42)).outcome =
          .error SimError.nameError) :=
  c10_nde_zero_raises pt0 reqZ (numpyDefaultRng 42) rfl

end

end Compydetools
